import Mathlib

/-!
Shallow embedding of the atomic model generation core of the nanodesign
repository (`nanodesign/converters/pdbcif/utils.py` and
`nanodesign/converters/pdbcif/atomic_structure.py`), together with proofs
about the claims of its specification.

Conventions used throughout the embedding:
* NumPy float arrays are modelled by exact real vectors/matrices
  (`Vec3`, `Mat3`).
* The sentinel "empty array" used by the source for an unset rotation or
  translation is modelled by `Option`.
* Python exceptions (`ValueError` from `math.acos` on an out-of-domain
  argument, `ZeroDivisionError` on float division by zero, `np.dot` on
  an empty matrix) are modelled by an `Option`-valued result, `none`
  meaning the call raises.
* Logging calls have no effect on the computed data and are omitted.
-/

namespace Nanodesign

/-- Vectors with three real components, the embedding of NumPy shape-(3,)
float arrays. -/
abbrev Vec3 := Fin 3 → ℝ

/-- Real 3x3 matrices, the embedding of NumPy shape-(3,3) float arrays. -/
abbrev Mat3 := Matrix (Fin 3) (Fin 3) ℝ

/-- Embedding of `utils._Rx`: rotation matrix for an angle (in degrees)
about the X-axis. -/
noncomputable def _Rx (deg : ℝ) : Mat3 :=
  let rad := Real.pi * (deg / 180)
  let c := Real.cos rad
  let s := Real.sin rad
  Matrix.of ![![1, 0, 0], ![0, c, -s], ![0, s, c]]

/-- Embedding of `utils._Ry`: rotation matrix for an angle (in degrees)
about the Y-axis. -/
noncomputable def _Ry (deg : ℝ) : Mat3 :=
  let rad := Real.pi * (deg / 180)
  let c := Real.cos rad
  let s := Real.sin rad
  Matrix.of ![![c, 0, s], ![0, 1, 0], ![-s, 0, c]]

/-- Embedding of `utils._vrrotvec2mat`: Rodrigues construction of a rotation
matrix from an axis and an angle (radians).  The axis is normalized
internally, exactly as in the source; the source is never called with a
zero axis (on one, NumPy would produce NaNs where this embedding divides
by zero). -/
noncomputable def _vrrotvec2mat (axis : Vec3) (theta : ℝ) : Mat3 :=
  let s := Real.sin theta
  let c := Real.cos theta
  let t := 1 - c
  let n := Real.sqrt (axis 0 ^ 2 + axis 1 ^ 2 + axis 2 ^ 2)
  let x := axis 0 / n
  let y := axis 1 / n
  let z := axis 2 / n
  Matrix.of ![![t*x*x + c, t*x*y - s*z, t*x*z + s*y],
              ![t*x*y + s*z, t*y*y + c, t*y*z - s*x],
              ![t*x*z - s*y, t*y*z + s*x, t*z*z + c]]

/-- Embedding of `utils._vrrotmat2vec`: extraction of an (axis, angle) pair
from a 3x3 matrix.  The first `none` branch models the `ValueError` raised
by `math.acos` when its argument lies outside `[-1, 1]` (the source applies
`acos` to the raw value with no clamping); the second models the
`ZeroDivisionError` raised by the float divisions of the general branch
when the normalizing square root is zero.  The debug-only self-check of
the source only prints warnings and is omitted. -/
noncomputable def _vrrotmat2vec (R : Mat3) : Option (Vec3 × ℝ) :=
  let r00 := R 0 0
  let r01 := R 0 1
  let r02 := R 0 2
  let r10 := R 1 0
  let r11 := R 1 1
  let r12 := R 1 2
  let r20 := R 2 0
  let r21 := R 2 1
  let r22 := R 2 2
  let tr2 := (r00 + r11 + r22 - 1) / 2
  if tr2 < -1 ∨ 1 < tr2 then none
  else
    let angle := Real.arccos tr2
    if |angle| < 0.0001 then
      some (![1, 0, 0], 0)
    else if |angle - Real.pi| < 0.0001 then
      let epsilon : ℝ := 0.01
      let xx := (r00 + 1) / 2
      let yy := (r11 + 1) / 2
      let zz := (r22 + 1) / 2
      let xy := (r01 + r10) / 4
      let xz := (r02 + r20) / 4
      let yz := (r12 + r21) / 4
      if xx > yy ∧ xx > zz then
        if xx < epsilon then some (![0, 0.7071, 0.7071], angle)
        else some (![Real.sqrt xx, xy / Real.sqrt xx, xz / Real.sqrt xx], angle)
      else if yy > zz then
        if yy < epsilon then some (![0.7071, 0, 0.7071], angle)
        else some (![xy / Real.sqrt yy, Real.sqrt yy, yz / Real.sqrt yy], angle)
      else
        if zz < epsilon then some (![0.7071, 0.7071, 0], angle)
        else some (![xz / Real.sqrt zz, yz / Real.sqrt zz, Real.sqrt zz], angle)
    else
      let den := Real.sqrt ((r21 - r12) ^ 2 + (r02 - r20) ^ 2 + (r10 - r01) ^ 2)
      if den = 0 then none
      else some (![(r21 - r12) / den, (r02 - r20) / den, (r10 - r01) / den], angle)

/-- Embedding of `AtomicStructure._fit_R_d`: interpolation of rotations and
translations between the two anchor frames of a single-stranded region.
The two discarded extractions reproduce the calls the source makes on
`R_1` and `R_2` (their results are only logged, but they can raise). -/
noncomputable def _fit_R_d (R_1 : Mat3) (d_1 : Vec3) (R_2 : Mat3) (d_2 : Vec3)
    (num_bases : ℕ) : Option (List Mat3 × List Vec3) := do
  let R := R_2 * R_1.transpose
  let _ ← _vrrotmat2vec R_1
  let _ ← _vrrotmat2vec R_2
  let (axis, theta) ← _vrrotmat2vec R
  let R_fit := List.ofFn (fun i : Fin num_bases =>
    _vrrotvec2mat axis ((theta * ((i : ℕ) + 1)) / ((num_bases : ℝ) + 1)) * R_1)
  let d_fit := List.ofFn (fun i : Fin num_bases => fun k =>
    (d_1 k * ((num_bases : ℝ) + 1 - ((i : ℕ) + 1)) + d_2 k * ((i : ℕ) + 1)) /
      ((num_bases : ℝ) + 1))
  pure (R_fit, d_fit)

/-- Embedding of the 5-prime scan of `_find_single_strands` (the first
inner `while (not is_visited[i])` loop): march towards lower indices,
marking and collecting unvisited positions, wrapping to `num_nt - 1` when
the strand is circular and breaking at position 0 otherwise.  The loop is
structurally recursive on a fuel argument; every iteration marks one more
position visited, so the fuel `num_nt + 1` supplied by
`_find_single_strands` always suffices. -/
def scanDown (is_circular : Bool) (num_nt : ℕ) :
    List Bool → List ℕ → ℕ → ℕ → List Bool × List ℕ
  | visited, run, _, 0 => (visited, run)
  | visited, run, i, fuel + 1 =>
    if visited.getD i true then (visited, run)
    else
      let visited' := visited.set i true
      let run' := run ++ [i]
      if 0 < i then scanDown is_circular num_nt visited' run' (i - 1) fuel
      else if is_circular then scanDown is_circular num_nt visited' run' (num_nt - 1) fuel
      else (visited', run')

/-- Embedding of the 3-prime scan of `_find_single_strands` (the second
inner `while (not is_visited[i])` loop): march towards higher indices,
marking and collecting unvisited positions, wrapping to 0 when the strand
is circular and breaking at position `num_nt - 1` otherwise. -/
def scanUp (is_circular : Bool) (num_nt : ℕ) :
    List Bool → List ℕ → ℕ → ℕ → List Bool × List ℕ
  | visited, run, _, 0 => (visited, run)
  | visited, run, i, fuel + 1 =>
    if visited.getD i true then (visited, run)
    else
      let visited' := visited.set i true
      let run' := run ++ [i]
      if i < num_nt - 1 then scanUp is_circular num_nt visited' run' (i + 1) fuel
      else if is_circular then scanUp is_circular num_nt visited' run' 0 fuel
      else (visited', run')

/-- Embedding of the outer `while (True)` loop of `_find_single_strands`:
find the first unvisited position `i_0`, scan in the 5-prime direction,
then -- exactly as the source's `single_strands[-1] = []` line does --
discard everything that scan collected (its only surviving effect is the
visited marks), reset `is_visited[i_0]`, scan in the 3-prime direction and
emit what that scan collected.  Each round marks at least `i_0` visited
for good, so the fuel `num_nt + 1` always suffices. -/
def findSingleStrandsLoop (is_circular : Bool) (num_nt : ℕ) :
    List Bool → List (List ℕ) → ℕ → List (List ℕ)
  | _, acc, 0 => acc
  | visited, acc, fuel + 1 =>
    match visited.findIdx? (fun v => !v) with
    | none => acc
    | some i_0 =>
      let p5 := scanDown is_circular num_nt visited [] i_0 (num_nt + 1)
      let visited' := p5.1.set i_0 false
      let p3 := scanUp is_circular num_nt visited' [] i_0 (num_nt + 1)
      findSingleStrandsLoop is_circular num_nt p3.1 (acc ++ [p3.2]) fuel

/-- Embedding of `AtomicStructure._find_single_strands`.  It is polymorphic
in the rotation payload because the source inspects nothing but
`rmat.size != 0`, i.e. whether each entry is set. -/
def _find_single_strands {α : Type} (rotations : List (Option α))
    (is_circular : Bool) : List (List ℕ) :=
  let num_nt := rotations.length
  let is_visited := rotations.map Option.isSome
  findSingleStrandsLoop is_circular num_nt is_visited [] (num_nt + 1)

/-- The three per-base arrays threaded through `_generate_bulge_dof`. -/
structure BulgeArrays where
  rotations : List (Option Mat3)
  translations : List (Option Vec3)
  is_main : List Bool

/-- One write of the update loop at the end of `_generate_bulge_dof`
(lines 500-504): at run position `p.1`, mark `is_main`, and store the
fitted rotation and translation. -/
noncomputable def bulgeWrite (a : BulgeArrays) (p : ℕ × Mat3 × Vec3) :
    BulgeArrays :=
  BulgeArrays.mk (a.rotations.set p.1 (some p.2.1))
    (a.translations.set p.1 (some p.2.2)) (a.is_main.set p.1 true)

/-- Body of the per-region loop of `_generate_bulge_dof` (lines 454-504):
fetch the anchor frames on the two sides of the single-stranded region
(wrapping at the array ends), flip an anchor that is not a main base by a
half-turn about the local Z axis, interpolate, and write the results into
the run's positions.  The `Option` binds on the anchor lookups model the
`ValueError` NumPy raises when the source feeds an unset (empty) anchor
rotation or translation into `np.dot` and friends. -/
noncomputable def processSingleStrand (num_nt : ℕ) (st : BulgeArrays)
    (strand_pos : List ℕ) : Option BulgeArrays :=
  if strand_pos.length = 0 then pure st
  else do
    let first := strand_pos.headD 0
    let i_1 := if first = 0 then num_nt - 1 else first - 1
    let R_1 ← st.rotations.getD i_1 none
    let d_1 ← st.translations.getD i_1 none
    let R_1 := if ¬ (st.is_main.getD i_1 false) then
        R_1 * _vrrotvec2mat ![0, 0, 1] Real.pi
      else R_1
    let last := strand_pos.getLastD 0
    let i_2 := if last + 1 > num_nt - 1 then 0 else last + 1
    let R_2 ← st.rotations.getD i_2 none
    let d_2 ← st.translations.getD i_2 none
    let R_2 := if ¬ (st.is_main.getD i_2 false) then
        R_2 * _vrrotvec2mat ![0, 0, 1] Real.pi
      else R_2
    let fit ← _fit_R_d R_1 d_1 R_2 d_2 strand_pos.length
    pure ((strand_pos.zip (fit.1.zip fit.2)).foldl bulgeWrite st)

/-- Embedding of `AtomicStructure._generate_bulge_dof`: find the unset
regions, blank -- for a linear strand -- every region touching either
strand end (the source's reversed loop replaces entries independently, so
it is a map), then interpolate the remaining regions one after the other.
The regions produced by `_find_single_strands` are never empty, so the
`headD`/`getLastD` defaults are never consulted (on an empty region the
source would raise an `IndexError` instead). -/
noncomputable def _generate_bulge_dof (rotations : List (Option Mat3))
    (translations : List (Option Vec3)) (is_main : List Bool)
    (is_circular : Bool) : Option BulgeArrays :=
  let num_nt := rotations.length
  let single_strands := _find_single_strands rotations is_circular
  let single_strands :=
    if ¬ is_circular then
      single_strands.map (fun r =>
        if r.headD 0 = 0 ∨ r.getLastD 0 = num_nt - 1 then [] else r)
    else single_strands
  single_strands.foldlM (processSingleStrand num_nt)
    (BulgeArrays.mk rotations translations is_main)

/-- The data of one base record of `base_connectivity` that the atomic
structure code reads: the base's id, the index of its owning strand, and
its sequence letter. -/
structure BaseRec where
  id : ℕ
  strand : ℕ
  seq : Char

/-- Embedding of `AtomicStructureStrand`: a strand's tour of base ids, its
flags, its chain ID and the four per-base parallel arrays. -/
structure AtomicStructureStrand where
  id : ℕ
  tour : List ℕ
  is_scaffold : Bool
  is_circular : Bool
  chainID : String
  is_main : List Bool
  seq : List Char
  rotations : List (Option Mat3)
  translations : List (Option Vec3)

/-- Embedding of `AtomicStructureStrand.__init__`: arrays sized to the
tour, `is_main` all false, sequence letters all the placeholder `'N'`,
rotations and translations unset, chain ID of the form
`<sc|st>.<helix>.<startPos>` derived from the scaffold flag and the first
base's helix number and position (the base records carrying `h` and `p`
live in the data package outside these sources, so the two numbers are
taken as inputs). -/
def AtomicStructureStrand.init (id : ℕ) (tour : List ℕ)
    (is_scaffold is_circular : Bool) (first_h first_p : ℤ) :
    AtomicStructureStrand :=
  { id := id, tour := tour, is_scaffold := is_scaffold,
    is_circular := is_circular,
    chainID := (if is_scaffold then "sc" else "st") ++ "." ++
      toString first_h ++ "." ++ toString first_p,
    is_main := List.replicate tour.length false,
    seq := List.replicate tour.length 'N',
    rotations := List.replicate tour.length none,
    translations := List.replicate tour.length none }

/-- The inputs of `generate_structure` read off the `DnaStructure`: the
base connectivity, the helix axis coordinates (one per pairing entry), the
helix axis frames (the triad stack, stored here as one matrix per pairing
entry), and the pairing table `id_nt`. -/
structure DnaStructureData where
  base_conn : List BaseRec
  helix_axis_coords : List Vec3
  helix_axis_frames : List Mat3
  id_nt : List (ℕ × ℕ)

/-- Modelled from the spec: `DnaStrand.get_base_index` is defined in the
data package, which is not among these sources.  Per the spec's data
model, array index `i` corresponds to tour position `i`, so the index of
a base along its strand is the position of its id in the strand's tour. -/
def get_base_index (s : AtomicStructureStrand) (baseId : ℕ) : ℕ :=
  s.tour.indexOf baseId

/-- The in-place unit conversion loop of `generate_structure` (lines
182-185): every base node coordinate with row index below `len(id_nt)` is
multiplied by 10 (angstrom conversion). -/
noncomputable def scaleBaseNodes (base_nodes : List Vec3) (m : ℕ) : List Vec3 :=
  base_nodes.mapIdx (fun i v => if i < m then fun k => 10 * v k else v)

/-- The triad direction reversal of `generate_structure` (lines 189-196):
negate the first and third columns (major groove and helix axis
directions) of a triad. -/
noncomputable def flipTriad (T : Mat3) : Mat3 :=
  Matrix.of fun r c => if c = 0 ∨ c = 2 then -(T r c) else T r c

/-- The in-place flip loop of `generate_structure`: apply `flipTriad` to
every triad with index below `len(id_nt)`. -/
noncomputable def flipTriads (triads : List Mat3) (m : ℕ) : List Mat3 :=
  triads.mapIdx (fun i T => if i < m then flipTriad T else T)

/-- The fixed basis change of `generate_structure` (line 199): rotation
converting the frame [e1 e2 e3] to [-e2 e3 -e1]. -/
noncomputable def rot_mat : Mat3 :=
  Matrix.of ![![0, 0, -1], ![-1, 0, 0], ![0, 1, 0]]

/-- The destructive preprocessing of `generate_structure`, as a state
transform on the structure data: the source mutates
`dna_structure.helix_axis_coords` and `dna_structure.helix_axis_frames`
in place, so the caller's structure is left holding the scaled
coordinates and the flipped triads. -/
noncomputable def generateStructurePre (d : DnaStructureData) : DnaStructureData :=
  { d with
    helix_axis_coords := scaleBaseNodes d.helix_axis_coords d.id_nt.length,
    helix_axis_frames := flipTriads d.helix_axis_frames d.id_nt.length }

/-- One four-array write of the strand-data loop of `generate_structure`:
at strand `slot.1`, base index `slot.2`, set `is_main`, `seq`,
`rotations` and `translations` exactly as source lines 211-214
(respectively 221-224) do.  Writes outside the arrays leave the state
unchanged (the source would raise an `IndexError` there). -/
noncomputable def writeBase (strands : List AtomicStructureStrand)
    (slot : ℕ × ℕ) (main : Bool) (c : Char) (Rv : Mat3) (dv : Vec3) :
    List AtomicStructureStrand :=
  match strands.get? slot.1 with
  | none => strands
  | some s =>
    strands.set slot.1
      { s with is_main := s.is_main.set slot.2 main,
               seq := s.seq.set slot.2 c,
               rotations := s.rotations.set slot.2 (some Rv),
               translations := s.translations.set slot.2 (some dv) }

/-- Default base record used for out-of-range pairing-table lookups (the
source would raise an `IndexError` there; every claim below assumes the
table indices are in range). -/
def defaultBase : BaseRec := BaseRec.mk 0 0 'N'

/-- Default strand used for out-of-range strand lookups. -/
def defaultStrand : AtomicStructureStrand :=
  AtomicStructureStrand.init 0 [] false false 0 0

/-- The strand slot (strand index, base index along the strand) of the
first-listed base of pairing entry `i` (`base1_sindex` in the source). -/
def pairSlot1 (d : DnaStructureData) (strands : List AtomicStructureStrand)
    (i : ℕ) : ℕ × ℕ :=
  let b := d.base_conn.getD (d.id_nt.getD i (0, 0)).1 defaultBase
  (b.strand, get_base_index (strands.getD b.strand defaultStrand) b.id)

/-- The strand slot of the paired base of pairing entry `i`
(`base2_sindex` in the source). -/
def pairSlot2 (d : DnaStructureData) (strands : List AtomicStructureStrand)
    (i : ℕ) : ℕ × ℕ :=
  let b := d.base_conn.getD (d.id_nt.getD i (0, 0)).2 defaultBase
  (b.strand, get_base_index (strands.getD b.strand defaultStrand) b.id)

/-- The write performed for the first-listed base of pairing entry `i`
(source lines 211-214): `is_main = true`, the base's sequence letter, the
entry's triad composed with `rot_mat`, and the entry's axis coordinate. -/
noncomputable def pairWrite1 (d : DnaStructureData)
    (strands : List AtomicStructureStrand) (i : ℕ) :
    (ℕ × ℕ) × Bool × Char × Mat3 × Vec3 :=
  (pairSlot1 d strands i, true,
   (d.base_conn.getD (d.id_nt.getD i (0, 0)).1 defaultBase).seq,
   d.helix_axis_frames.getD i 0 * rot_mat,
   d.helix_axis_coords.getD i (fun _ => 0))

/-- The write performed for the paired base of pairing entry `i` (source
lines 221-224): `is_main = false`, same frame and coordinate. -/
noncomputable def pairWrite2 (d : DnaStructureData)
    (strands : List AtomicStructureStrand) (i : ℕ) :
    (ℕ × ℕ) × Bool × Char × Mat3 × Vec3 :=
  (pairSlot2 d strands i, false,
   (d.base_conn.getD (d.id_nt.getD i (0, 0)).2 defaultBase).seq,
   d.helix_axis_frames.getD i 0 * rot_mat,
   d.helix_axis_coords.getD i (fun _ => 0))

/-- The per-entry writes performed by the strand-data loop of
`generate_structure` (lines 205-224), flattened in execution order: entry
`i` of `id_nt` yields the write for its first base (`is_main = true`)
followed by the write for its paired base (`is_main = false`).  No write
ever modifies a tour, so computing each base's strand index against the
initial strands is faithful to the source. -/
noncomputable def pairWrites (d : DnaStructureData)
    (strands : List AtomicStructureStrand) :
    List ((ℕ × ℕ) × Bool × Char × Mat3 × Vec3) :=
  (List.range d.id_nt.length).flatMap (fun i =>
    [pairWrite1 d strands i, pairWrite2 d strands i])

/-- Application of one flattened write. -/
noncomputable def applyWrite (ss : List AtomicStructureStrand)
    (w : (ℕ × ℕ) × Bool × Char × Mat3 × Vec3) : List AtomicStructureStrand :=
  writeBase ss w.1 w.2.1 w.2.2.1 w.2.2.2.1 w.2.2.2.2

/-- Embedding of the strand-data loop of `generate_structure`: fold the
flattened per-base writes over the strand list. -/
noncomputable def setStrandData (d : DnaStructureData)
    (strands : List AtomicStructureStrand) : List AtomicStructureStrand :=
  (pairWrites d strands).foldl applyWrite strands

/-- Read-back observable: the rotation stored at a strand slot. -/
noncomputable def strandRotAt (strands : List AtomicStructureStrand)
    (slot : ℕ × ℕ) : Option Mat3 :=
  (strands.getD slot.1 defaultStrand).rotations.getD slot.2 none

/-- Read-back observable: the translation stored at a strand slot. -/
noncomputable def strandTransAt (strands : List AtomicStructureStrand)
    (slot : ℕ × ℕ) : Option Vec3 :=
  (strands.getD slot.1 defaultStrand).translations.getD slot.2 none

/-- Read-back observable: the `is_main` flag stored at a strand slot. -/
noncomputable def strandMainAt (strands : List AtomicStructureStrand)
    (slot : ℕ × ℕ) : Bool :=
  (strands.getD slot.1 defaultStrand).is_main.getD slot.2 false

/-- A strand slot that actually addresses entries of the per-base arrays
(the source would raise an `IndexError` on any other). -/
def SlotInRange (strands : List AtomicStructureStrand) (slot : ℕ × ℕ) : Prop :=
  slot.1 < strands.length ∧
  slot.2 < (strands.getD slot.1 defaultStrand).rotations.length ∧
  slot.2 < (strands.getD slot.1 defaultStrand).translations.length ∧
  slot.2 < (strands.getD slot.1 defaultStrand).is_main.length

/-- The frame-assignment front half of `generate_structure` (everything
before the bulge loop), as a state transform: the structure data is
mutated in place (scaling and triad flips) and the strand arrays are
filled from the pairing table. -/
noncomputable def generate_structure_frames (d : DnaStructureData)
    (strands : List AtomicStructureStrand) :
    DnaStructureData × List AtomicStructureStrand :=
  let dPre := generateStructurePre d
  (dPre, setStrandData dPre strands)

/-- Embedding of `Atom` (from `atomic_types.py`): the fields carried by a
template or emitted atom. -/
structure AtomRec where
  id : ℤ
  name : String
  res_name : String
  chainID : String
  res_seq_num : ℤ
  coords : Vec3
  element : String

/-- Embedding of `Molecule` (from `atomic_types.py`): the per-strand output
container.  The residue-to-atom-name index the source also maintains is a
lookup cache no claim mentions and is not modelled. -/
structure MoleculeData where
  id : ℕ
  atoms : List AtomRec
  chains : List String

/-- Embedding of `Molecule.add_atom`: append the atom and record its chain
id in the chain set. -/
def MoleculeData.add_atom (m : MoleculeData) (a : AtomRec) : MoleculeData :=
  { m with atoms := m.atoms ++ [a],
           chains := if a.chainID ∈ m.chains then m.chains
                     else m.chains ++ [a.chainID] }

/-- Per-base body of the atom-generation loop of
`_create_atoms_from_strand` (lines 334-374): skip a base with an unset
frame; skip (with a logged warning) a base whose upper-cased sequence
letter is not a key of the template table; otherwise duplicate the
matching template set (forward for a main base, reverse otherwise),
renumber the copies from the running atom id, and place each copy at
`(strand_R . Ry180) . coords + D`.  The `Option` bind on the translation
models the error NumPy would raise on a base with a rotation but no
translation; the source always sets the two together.  The two template
tables are built with the same four keys, so the reverse lookup cannot
miss when the forward one hits. -/
noncomputable def createAtomsStep (strand : AtomicStructureStrand)
    (forward_struct reverse_struct : Char → Option (List AtomRec))
    (st : MoleculeData × ℤ) (i : ℕ) : Option (MoleculeData × ℤ) :=
  match strand.rotations.getD i none with
  | none => pure st
  | some strand_R =>
    let base_name := (strand.seq.getD i 'N').toUpper
    if (forward_struct base_name).isNone then pure st
    else do
      let R := strand_R * _Ry 180
      let D ← strand.translations.getD i none
      let current_struct :=
        if strand.is_main.getD i false then (forward_struct base_name).getD []
        else (reverse_struct base_name).getD []
      let placed := current_struct.mapIdx (fun j a =>
        { a with id := st.2 + j, chainID := strand.chainID,
                 res_seq_num := (i : ℤ) + 1,
                 coords := fun k => R.mulVec a.coords k + D k })
      pure (placed.foldl MoleculeData.add_atom st.1,
            st.2 + current_struct.length)

/-- Embedding of `_create_atoms_from_strand`: create a molecule holding
the atoms of one strand, threading the global atom id.  The initial bind
reproduces the source's lookup of the strand's first base (line 320,
used only for logging, but it raises on an empty tour or a bad id). -/
noncomputable def _create_atoms_from_strand (base_conn : List BaseRec)
    (strand : AtomicStructureStrand)
    (forward_struct reverse_struct : Char → Option (List AtomRec))
    (first_atomID_in : ℤ) : Option (MoleculeData × ℤ) := do
  let _ ← strand.tour.head?.bind (fun t => base_conn.get? (t - 1))
  (List.range strand.tour.length).foldlM
    (createAtomsStep strand forward_struct reverse_struct)
    (MoleculeData.mk strand.id [] [], first_atomID_in)

/-- Embedding of `_generate_atoms`, with the template tables taken as
inputs: the four template PDB files are read through `PdbReader`, which is
not among these sources; `forward_struct` and `reverse_struct` are the
tables that reading builds, keyed by the four base names.  The global atom
serial counter starts at 1 and is threaded through the strands without
ever being reset. -/
noncomputable def _generate_atoms (base_conn : List BaseRec)
    (strands : List AtomicStructureStrand)
    (forward_struct reverse_struct : Char → Option (List AtomRec)) :
    Option (List MoleculeData) := do
  let res ← strands.foldlM
    (fun (acc : List MoleculeData × ℤ) strand => do
      let out ← _create_atoms_from_strand base_conn strand
        forward_struct reverse_struct acc.2
      pure (acc.1 ++ [out.1], out.2))
    (([] : List MoleculeData), (1 : ℤ))
  pure res.1

/-- Observable for the claim about the extraction/reconstruction
roundtrip: extract an (axis, angle) pair and rebuild the matrix. -/
noncomputable def roundtrip (R : Mat3) : Option Mat3 :=
  (_vrrotmat2vec R).map (fun p => _vrrotvec2mat p.1 p.2)

/-- The rotation matrix of the C9 counterexample: a rotation about the
x-axis whose angle lies strictly between `pi - 1e-4` and `pi` (its cosine
is `-899999999/900000001` and its sine is `-60000/900000001`, an exact
Pythagorean pair). -/
noncomputable def Rc : Mat3 :=
  Matrix.of ![![1, 0, 0],
    ![0, -(899999999/900000001), 60000/900000001],
    ![0, -(60000/900000001), -(899999999/900000001)]]

/-!
Theorems.  Each claim of the specification is settled by one theorem
below; shared helper lemmas come first or in between.
-/

/-- Extraction applied to the identity matrix: the trace is 3, the angle 0,
and the near-zero branch returns the default axis. -/
theorem vrrotmat2vec_one : _vrrotmat2vec (1 : Mat3) = some (![1, 0, 0], 0) := by
  unfold _vrrotmat2vec
  norm_num [Matrix.one_apply, Real.arccos_one]

/-- Claim C1: for a single-stranded region of length n whose anchor frames
(R_1, d_1) and (R_2, d_2) are resolved (all three axis-angle extractions
succeed), `_fit_R_d` produces exactly n rotations and n translations; for
j = 1..n the j-th rotation is `axisAngleToMatrix(axis, theta*j/(n+1))`
left-composed onto R_1, where (axis, theta) is extracted from the relative
rotation `R_2 * transpose R_1`, and the j-th translation is
`(d_1*(n+1-j) + d_2*j)/(n+1)`. -/
theorem fit_R_d_interpolates (R_1 R_2 : Mat3) (d_1 d_2 : Vec3) (n : ℕ)
    (axis : Vec3) (theta : ℝ)
    (h1 : (_vrrotmat2vec R_1).isSome) (h2 : (_vrrotmat2vec R_2).isSome)
    (h : _vrrotmat2vec (R_2 * R_1.transpose) = some (axis, theta)) :
    ∃ Rs ds, _fit_R_d R_1 d_1 R_2 d_2 n = some (Rs, ds) ∧
      Rs.length = n ∧ ds.length = n ∧
      (∀ j : ℕ, 1 ≤ j → j ≤ n →
        Rs.getD (j - 1) 0 =
          _vrrotvec2mat axis ((theta * j) / ((n : ℝ) + 1)) * R_1) ∧
      (∀ j : ℕ, 1 ≤ j → j ≤ n → ∀ k : Fin 3,
        (ds.getD (j - 1) (fun _ => 0)) k =
          (d_1 k * ((n : ℝ) + 1 - j) + d_2 k * j) / ((n : ℝ) + 1)) := by
  obtain ⟨p1, hp1⟩ := Option.isSome_iff_exists.mp h1
  obtain ⟨p2, hp2⟩ := Option.isSome_iff_exists.mp h2
  refine ⟨List.ofFn (fun i : Fin n =>
      _vrrotvec2mat axis ((theta * ((i : ℕ) + 1)) / ((n : ℝ) + 1)) * R_1),
    List.ofFn (fun i : Fin n => fun k =>
      (d_1 k * ((n : ℝ) + 1 - ((i : ℕ) + 1)) + d_2 k * ((i : ℕ) + 1)) /
        ((n : ℝ) + 1)), ?_, ?_, ?_, ?_, ?_⟩
  · simp only [_fit_R_d, hp1, hp2, h]
    rfl
  · simp
  · simp
  · intro j hj1 hj2
    have hlt : j - 1 < n := by omega
    rw [List.getD_eq_getElem _ _ (by simpa using hlt)]
    rw [List.getElem_ofFn]
    have hc : ((j - 1 : ℕ) : ℝ) + 1 = (j : ℝ) := by
      push_cast [Nat.cast_sub hj1]
      ring
    simp [hc]
  · intro j hj1 hj2 k
    have hlt : j - 1 < n := by omega
    rw [List.getD_eq_getElem _ _ (by simpa using hlt)]
    rw [List.getElem_ofFn]
    have hc : ((j - 1 : ℕ) : ℝ) + 1 = (j : ℝ) := by
      push_cast [Nat.cast_sub hj1]
      ring
    simp [hc]

/-- Witness for `fit_R_d_interpolates`: both anchors the identity frame,
a region of length 2. -/
theorem fit_R_d_interpolates_witness :
    ∃ Rs ds, _fit_R_d (1 : Mat3) (fun _ => 0) 1 (fun _ => 0) 2 = some (Rs, ds) ∧
      Rs.length = 2 ∧ ds.length = 2 ∧
      (∀ j : ℕ, 1 ≤ j → j ≤ 2 →
        Rs.getD (j - 1) 0 =
          _vrrotvec2mat ![1, 0, 0] (((0 : ℝ) * j) / (((2 : ℕ) : ℝ) + 1)) * 1) ∧
      (∀ j : ℕ, 1 ≤ j → j ≤ 2 → ∀ k : Fin 3,
        (ds.getD (j - 1) (fun _ => 0)) k =
          ((fun _ : Fin 3 => (0 : ℝ)) k * (((2 : ℕ) : ℝ) + 1 - j) +
            (fun _ : Fin 3 => (0 : ℝ)) k * j) / (((2 : ℕ) : ℝ) + 1)) :=
  fit_R_d_interpolates 1 1 (fun _ => 0) (fun _ => 0) 2 ![1, 0, 0] 0
    (by rw [vrrotmat2vec_one]; rfl) (by rw [vrrotmat2vec_one]; rfl)
    (by
      have h1 : (1 : Mat3) * (1 : Mat3).transpose = 1 := by simp
      rw [h1, vrrotmat2vec_one])

/-- Claim C2 (code bug): the spec requires every interior run of unset
bases to be resolved and, in particular, a fully single-stranded circular
strand to end with zero unset frames.  On a circular strand of length 3
with every base unpaired, however, the region finder emits only position
0 -- the 5-prime scan's collection is discarded by the
`single_strands[-1] = []` line of `_find_single_strands` -- and
`_generate_bulge_dof` then dereferences the unset anchor rotation at index
2, which raises a `ValueError` inside `np.dot`; no frame is ever
resolved. -/
theorem bulge_circular_all_unset_bug :
    _find_single_strands ([none, none, none] : List (Option Mat3)) true = [[0]] ∧
    _generate_bulge_dof [none, none, none] [none, none, none]
      [false, false, false] true = none :=
  ⟨rfl, rfl⟩

/-- Counterexample for claim C4: the claim says a matrix whose
`(trace - 1)/2` exceeds 1 is clamped and handled normally, but
`_vrrotmat2vec` applies the inverse cosine to the raw value and the call
raises (`none`) on the diagonal matrix with entries 1.2, whose
`(trace - 1)/2` is 1.3. -/
theorem vrrotmat2vec_no_clamp_counterexample :
    1 < (((Matrix.of ![![1.2, 0, 0], ![0, 1.2, 0], ![0, 0, 1.2]] : Mat3).trace - 1) / 2) ∧
    _vrrotmat2vec (Matrix.of ![![1.2, 0, 0], ![0, 1.2, 0], ![0, 0, 1.2]] : Mat3) = none := by
  constructor
  · rw [Matrix.trace_fin_three]
    norm_num [Matrix.cons_val_zero, Matrix.cons_val_one, Matrix.head_cons,
      Matrix.cons_val_two, Matrix.tail_cons]
  · unfold _vrrotmat2vec
    norm_num [Matrix.cons_val_zero, Matrix.cons_val_one, Matrix.head_cons,
      Matrix.cons_val_two, Matrix.tail_cons]

/-- Claim C4 (amended): for every 3x3 input matrix whose value
`(trace(R) - 1)/2` falls outside [-1, 1], `_vrrotmat2vec` performs no
clamping: the inverse cosine is applied to the raw value and the call
raises a math domain error (modelled as `none`) instead of returning
normally. -/
theorem vrrotmat2vec_domain_error (R : Mat3)
    (h : (R.trace - 1) / 2 < -1 ∨ 1 < (R.trace - 1) / 2) :
    _vrrotmat2vec R = none := by
  rw [Matrix.trace_fin_three] at h
  unfold _vrrotmat2vec
  rw [if_pos h]

/-- Witness for `vrrotmat2vec_domain_error` at the diagonal matrix with
entries 2. -/
theorem vrrotmat2vec_domain_error_witness :
    _vrrotmat2vec (Matrix.of ![![2, 0, 0], ![0, 2, 0], ![0, 0, 2]] : Mat3) = none :=
  vrrotmat2vec_domain_error _ (by
    rw [Matrix.trace_fin_three]
    norm_num [Matrix.cons_val_zero, Matrix.cons_val_one, Matrix.head_cons,
      Matrix.cons_val_two, Matrix.tail_cons])



theorem scaleBaseNodes_length (l : List Vec3) (m : ℕ) :
    (scaleBaseNodes l m).length = l.length := by
  simp only [scaleBaseNodes, List.length_mapIdx]

theorem scaleBaseNodes_eq_map (l : List Vec3) (m : ℕ) (h : l.length ≤ m) :
    scaleBaseNodes l m = l.map (fun v => fun k => 10 * v k) := by
  apply List.ext_getElem
  · rw [scaleBaseNodes_length, List.length_map]
  · intro i h1 h2
    have hi : i < m := by
      rw [scaleBaseNodes_length] at h1
      exact Nat.lt_of_lt_of_le h1 h
    rw [List.getElem_map]
    simp only [scaleBaseNodes]
    rw [List.getElem_mapIdx, if_pos hi]

theorem flipTriads_length (l : List Mat3) (m : ℕ) :
    (flipTriads l m).length = l.length := by
  simp only [flipTriads, List.length_mapIdx]

theorem flipTriads_eq_map (l : List Mat3) (m : ℕ) (h : l.length ≤ m) :
    flipTriads l m = l.map flipTriad := by
  apply List.ext_getElem
  · rw [flipTriads_length, List.length_map]
  · intro i h1 h2
    have hi : i < m := by
      rw [flipTriads_length] at h1
      exact Nat.lt_of_lt_of_le h1 h
    rw [List.getElem_map]
    simp only [flipTriads]
    rw [List.getElem_mapIdx, if_pos hi]

theorem flipTriad_flipTriad (T : Mat3) : flipTriad (flipTriad T) = T := by
  ext r c
  simp only [flipTriad, Matrix.of_apply]
  by_cases hc : c = 0 ∨ c = 2
  · rw [if_pos hc, if_pos hc, neg_neg]
  · rw [if_neg hc, if_neg hc]

/-- Claim C10: the destructive preprocessing of `generate_structure`
mutates the caller's structure data in place: after one run every helix
axis coordinate is multiplied by 10 and every triad has its first and
third columns sign-flipped, and a second call on the same (already
mutated) data compounds -- the coordinates become 100 times the original
and the triad columns are flipped back -- instead of operating on the
original input. -/
theorem generate_structure_mutates_input (d : DnaStructureData)
    (strands strands2 : List AtomicStructureStrand)
    (hc : d.helix_axis_coords.length = d.id_nt.length)
    (hf : d.helix_axis_frames.length = d.id_nt.length) :
    (generate_structure_frames d strands).1.helix_axis_coords =
        d.helix_axis_coords.map (fun v => fun k => 10 * v k) ∧
    (generate_structure_frames d strands).1.helix_axis_frames =
        d.helix_axis_frames.map flipTriad ∧
    (generate_structure_frames (generate_structure_frames d strands).1
        strands2).1.helix_axis_coords =
      d.helix_axis_coords.map (fun v => fun k => 100 * v k) ∧
    (generate_structure_frames (generate_structure_frames d strands).1
        strands2).1.helix_axis_frames = d.helix_axis_frames := by
  have e1 : (generate_structure_frames d strands).1.helix_axis_coords =
      d.helix_axis_coords.map (fun v => fun k => 10 * v k) := by
    simp only [generate_structure_frames, generateStructurePre]
    exact scaleBaseNodes_eq_map _ _ (le_of_eq hc)
  have e2 : (generate_structure_frames d strands).1.helix_axis_frames =
      d.helix_axis_frames.map flipTriad := by
    simp only [generate_structure_frames, generateStructurePre]
    exact flipTriads_eq_map _ _ (le_of_eq hf)
  have eid : (generate_structure_frames d strands).1.id_nt = d.id_nt := rfl
  refine ⟨e1, e2, ?_, ?_⟩
  · have : (generate_structure_frames (generate_structure_frames d strands).1
        strands2).1.helix_axis_coords =
        (generate_structure_frames d strands).1.helix_axis_coords.map
          (fun v => fun k => 10 * v k) := by
      simp only [generate_structure_frames, generateStructurePre]
      apply scaleBaseNodes_eq_map
      rw [scaleBaseNodes_length]
      exact le_of_eq hc
    rw [this, e1, List.map_map]
    apply List.map_congr_left
    intro v _
    funext k
    show 10 * (10 * v k) = 100 * v k
    ring
  · have : (generate_structure_frames (generate_structure_frames d strands).1
        strands2).1.helix_axis_frames =
        (generate_structure_frames d strands).1.helix_axis_frames.map flipTriad := by
      simp only [generate_structure_frames, generateStructurePre]
      apply flipTriads_eq_map
      rw [flipTriads_length]
      exact le_of_eq hf
    rw [this, e2, List.map_map]
    have hid : flipTriad ∘ flipTriad = id := funext flipTriad_flipTriad
    rw [hid, List.map_id]

/-- Witness for `generate_structure_mutates_input` on a one-entry
structure. -/
theorem generate_structure_mutates_input_witness :
    ((generate_structure_frames
        (DnaStructureData.mk [] [fun _ => 1] [1] [(0, 0)]) []).1.helix_axis_coords =
      ([fun _ => 1] : List Vec3).map (fun v => fun k => 10 * v k)) ∧
    ((generate_structure_frames
        (DnaStructureData.mk [] [fun _ => 1] [1] [(0, 0)]) []).1.helix_axis_frames =
      ([1] : List Mat3).map flipTriad) ∧
    ((generate_structure_frames (generate_structure_frames
        (DnaStructureData.mk [] [fun _ => 1] [1] [(0, 0)]) []).1 []).1.helix_axis_coords =
      ([fun _ => 1] : List Vec3).map (fun v => fun k => 100 * v k)) ∧
    ((generate_structure_frames (generate_structure_frames
        (DnaStructureData.mk [] [fun _ => 1] [1] [(0, 0)]) []).1 []).1.helix_axis_frames =
      ([1] : List Mat3)) :=
  generate_structure_mutates_input
    (DnaStructureData.mk [] [fun _ => 1] [1] [(0, 0)]) [] [] rfl rfl


theorem foldl_add_atom_atoms (placed : List AtomRec) :
    ∀ m : MoleculeData, (placed.foldl MoleculeData.add_atom m).atoms = m.atoms ++ placed := by
  induction placed with
  | nil => intro m; simp
  | cons a l ih =>
    intro m
    rw [List.foldl_cons, ih]
    simp [MoleculeData.add_atom]

theorem map_mapIdx {α β γ : Type} (l : List α) (f : ℕ → α → β) (g : β → γ) :
    (l.mapIdx f).map g = l.mapIdx (fun i a => g (f i a)) := by
  apply List.ext_getElem
  · simp
  · intro i h1 h2
    simp

theorem mapIdx_const {α β : Type} (l : List α) (h : ℕ → β) :
    l.mapIdx (fun i _ => h i) = (List.range l.length).map h := by
  apply List.ext_getElem
  · simp
  · intro i h1 h2
    simp

theorem consecutive_append (n : ℤ) (k1 k2 : ℕ) :
    (List.range k1).map (fun (j : ℕ) => n + (j : ℤ)) ++
      (List.range k2).map (fun (j : ℕ) => (n + k1) + (j : ℤ)) =
    (List.range (k1 + k2)).map (fun (j : ℕ) => n + (j : ℤ)) := by
  rw [List.range_add, List.map_append, List.map_map]
  congr 1
  apply List.map_congr_left
  intro j _
  simp only [Function.comp]
  push_cast
  ring

theorem createAtomsStep_atoms (strand : AtomicStructureStrand)
    (fwd rev : Char → Option (List AtomRec)) (m : MoleculeData) (nid : ℤ)
    (i : ℕ) (out : MoleculeData × ℤ)
    (h : createAtomsStep strand fwd rev (m, nid) i = some out) :
    ∃ blk : List AtomRec, out.1.atoms = m.atoms ++ blk ∧
      blk.map AtomRec.id = (List.range blk.length).map (fun (j : ℕ) => nid + (j : ℤ)) ∧
      out.2 = nid + blk.length := by
  unfold createAtomsStep at h
  cases hr : strand.rotations.getD i none with
  | none =>
    rw [hr] at h
    simp only [pure, Option.some.injEq] at h
    refine ⟨[], ?_, ?_, ?_⟩ <;> simp [← h]
  | some R0 =>
    rw [hr] at h
    simp only [] at h
    by_cases hk : (fwd ((strand.seq.getD i 'N').toUpper)).isNone
    · rw [if_pos hk] at h
      simp only [pure, Option.some.injEq] at h
      refine ⟨[], ?_, ?_, ?_⟩ <;> simp [← h]
    · rw [if_neg hk] at h
      cases hd : strand.translations.getD i none with
      | none => rw [hd] at h; simp at h
      | some D =>
        rw [hd] at h
        have h2 := Option.some.inj h
        subst h2
        refine ⟨_, foldl_add_atom_atoms _ m, ?_, ?_⟩
        · have hm : (List.mapIdx (fun (j : ℕ) (a : AtomRec) =>
              { a with id := nid + j, chainID := strand.chainID,
                       res_seq_num := (i : ℤ) + 1,
                       coords := fun k => (R0 * _Ry 180).mulVec a.coords k + D k })
              (if strand.is_main.getD i false then
                  (fwd ((strand.seq.getD i 'N').toUpper)).getD []
                else (rev ((strand.seq.getD i 'N').toUpper)).getD [])).map AtomRec.id =
              (if strand.is_main.getD i false then
                  (fwd ((strand.seq.getD i 'N').toUpper)).getD []
                else (rev ((strand.seq.getD i 'N').toUpper)).getD []).mapIdx
                (fun (j : ℕ) _ => nid + (j : ℤ)) := by
            rw [map_mapIdx]
          rw [hm, mapIdx_const]
          simp
        · simp

theorem foldlM_steps_atoms (strand : AtomicStructureStrand)
    (fwd rev : Char → Option (List AtomRec)) (L : List ℕ) :
    ∀ (m : MoleculeData) (nid : ℤ) (out : MoleculeData × ℤ),
      L.foldlM (createAtomsStep strand fwd rev) (m, nid) = some out →
      ∃ blk : List AtomRec, out.1.atoms = m.atoms ++ blk ∧
        blk.map AtomRec.id =
          (List.range blk.length).map (fun (j : ℕ) => nid + (j : ℤ)) ∧
        out.2 = nid + blk.length := by
  induction L with
  | nil =>
    intro m nid out h
    have h' := Option.some.inj h
    refine ⟨[], ?_, by simp, ?_⟩
    · rw [← h']
      simp
    · rw [← h']
      simp
  | cons i L ih =>
    intro m nid out h
    rw [List.foldlM_cons] at h
    cases hs : createAtomsStep strand fwd rev (m, nid) i with
    | none => rw [hs] at h; simp at h
    | some st1 =>
      rw [hs] at h
      have h2 : L.foldlM (createAtomsStep strand fwd rev) (st1.1, st1.2) = some out := by
        rw [Prod.mk.eta]
        exact h
      obtain ⟨blk1, ha1, hi1, hn1⟩ := createAtomsStep_atoms strand fwd rev m nid i st1 hs
      obtain ⟨blk2, ha2, hi2, hn2⟩ := ih st1.1 st1.2 out h2
      refine ⟨blk1 ++ blk2, ?_, ?_, ?_⟩
      · rw [ha2, ha1, List.append_assoc]
      · rw [List.map_append, hi1, hi2, List.length_append, hn1]
        exact consecutive_append nid blk1.length blk2.length
      · rw [hn2, hn1, List.length_append]
        push_cast
        ring

theorem create_atoms_from_strand_ids (base_conn : List BaseRec)
    (strand : AtomicStructureStrand) (fwd rev : Char → Option (List AtomRec))
    (a : ℤ) (mol : MoleculeData) (nid' : ℤ)
    (h : _create_atoms_from_strand base_conn strand fwd rev a = some (mol, nid')) :
    mol.atoms.map AtomRec.id =
      (List.range mol.atoms.length).map (fun (j : ℕ) => a + (j : ℤ)) ∧
    nid' = a + mol.atoms.length := by
  unfold _create_atoms_from_strand at h
  cases hh : strand.tour.head?.bind (fun t => base_conn.get? (t - 1)) with
  | none => rw [hh] at h; simp at h
  | some b =>
    rw [hh] at h
    have h2 : (List.range strand.tour.length).foldlM
        (createAtomsStep strand fwd rev)
        (MoleculeData.mk strand.id [] [], a) = some (mol, nid') := h
    obtain ⟨blk, ha, hi, hn⟩ := foldlM_steps_atoms strand fwd rev _ _ _ _ h2
    have hatoms : mol.atoms = blk := by simpa using ha
    constructor
    · rw [hatoms, hi]
    · rw [hatoms]
      exact hn

theorem generate_atoms_fold_ids (base_conn : List BaseRec)
    (fwd rev : Char → Option (List AtomRec)) (strands : List AtomicStructureStrand) :
    ∀ (acc : List MoleculeData) (nid : ℤ) (out : List MoleculeData × ℤ),
      strands.foldlM (fun (acc : List MoleculeData × ℤ) strand => do
          let o ← _create_atoms_from_strand base_conn strand fwd rev acc.2
          pure (acc.1 ++ [o.1], o.2)) (acc, nid) = some out →
      ∃ new : List MoleculeData, out.1 = acc ++ new ∧
        ((new.flatMap MoleculeData.atoms).map AtomRec.id =
          (List.range ((new.flatMap MoleculeData.atoms).length)).map
            (fun (j : ℕ) => nid + (j : ℤ))) ∧
        out.2 = nid + (new.flatMap MoleculeData.atoms).length := by
  induction strands with
  | nil =>
    intro acc nid out h
    have h' := Option.some.inj h
    refine ⟨[], ?_, by simp, ?_⟩
    · rw [← h']
      simp
    · rw [← h']
      simp
  | cons s strands ih =>
    intro acc nid out h
    rw [List.foldlM_cons] at h
    cases hs : _create_atoms_from_strand base_conn s fwd rev nid with
    | none => rw [hs] at h; simp at h
    | some o =>
      rw [hs] at h
      have h2 : strands.foldlM (fun (acc : List MoleculeData × ℤ) strand => do
          let o ← _create_atoms_from_strand base_conn strand fwd rev acc.2
          pure (acc.1 ++ [o.1], o.2)) (acc ++ [o.1], o.2) = some out := h
      obtain ⟨new2, hn2, hi2, ho2⟩ := ih (acc ++ [o.1]) o.2 out h2
      obtain ⟨hi1, ho1⟩ := create_atoms_from_strand_ids base_conn s fwd rev nid o.1 o.2
        (by rw [Prod.mk.eta]; exact hs)
      refine ⟨o.1 :: new2, ?_, ?_, ?_⟩
      · rw [hn2, List.append_assoc]
        rfl
      · rw [List.flatMap_cons, List.map_append, hi1, hi2, List.length_append, ho1]
        exact consecutive_append nid o.1.atoms.length (new2.flatMap MoleculeData.atoms).length
      · rw [ho2, ho1, List.flatMap_cons, List.length_append]
        push_cast
        ring

/-- Claim C3: during one generation run, the atom identities assigned to
emitted atoms, taken in emission order across all strands, are exactly
1, 2, 3, ... -- strictly increasing with no duplicates and no gaps, drawn
from a single global counter starting at 1 that is never reset between
strands, regardless of strand count or per-base skips. -/
theorem atom_ids_global_consecutive (base_conn : List BaseRec)
    (strands : List AtomicStructureStrand)
    (fwd rev : Char → Option (List AtomRec)) (ms : List MoleculeData)
    (h : _generate_atoms base_conn strands fwd rev = some ms) :
    (ms.flatMap MoleculeData.atoms).map AtomRec.id =
      (List.range ((ms.flatMap MoleculeData.atoms).length)).map
        (fun (j : ℕ) => 1 + (j : ℤ)) := by
  unfold _generate_atoms at h
  cases hf : strands.foldlM (fun (acc : List MoleculeData × ℤ) strand => do
      let o ← _create_atoms_from_strand base_conn strand fwd rev acc.2
      pure (acc.1 ++ [o.1], o.2)) (([] : List MoleculeData), (1 : ℤ)) with
  | none => rw [hf] at h; simp at h
  | some res =>
    rw [hf] at h
    have hm : res.1 = ms := by
      have := Option.some.inj h
      simpa using this
    obtain ⟨new, hn, hi, _⟩ := generate_atoms_fold_ids base_conn fwd rev strands [] 1 res hf
    have : ms = new := by rw [← hm, hn]; simp
    rw [this]
    exact hi

/-- Witness for `atom_ids_global_consecutive`: one strand of one base
whose frame is unset, so no atoms are emitted and the id list is empty. -/
theorem atom_ids_global_consecutive_witness :
    (([MoleculeData.mk 0 [] []].flatMap MoleculeData.atoms).map AtomRec.id =
      (List.range (([MoleculeData.mk 0 [] []].flatMap MoleculeData.atoms).length)).map
        (fun (j : ℕ) => 1 + (j : ℤ))) :=
  atom_ids_global_consecutive [BaseRec.mk 1 0 'A']
    [AtomicStructureStrand.init 0 [1] false false 0 0]
    (fun _ => none) (fun _ => none) [MoleculeData.mk 0 [] []] rfl


/-- Claim C6: for every base position with a resolved frame and a known
sequence letter, the Atom Assembler selects the forward template set when
`is_main` is true and the reverse set when it is false, and places each
template atom at `(baseRotation * rotationY(180 degrees)) * templateCoord
+ baseTranslation`, renumbering the copies from the running atom id and
stamping the strand chain id and the 1-based residue number. -/
theorem atom_assembler_selects_and_places (strand : AtomicStructureStrand)
    (fwd rev : Char → Option (List AtomRec)) (m : MoleculeData) (nid : ℤ)
    (i : ℕ) (R0 : Mat3) (D : Vec3) (tplF tplR : List AtomRec)
    (hR : strand.rotations.getD i none = some R0)
    (hD : strand.translations.getD i none = some D)
    (hF : fwd ((strand.seq.getD i 'N').toUpper) = some tplF)
    (hRv : rev ((strand.seq.getD i 'N').toUpper) = some tplR) :
    createAtomsStep strand fwd rev (m, nid) i =
      some (((if strand.is_main.getD i false then tplF else tplR).mapIdx
          (fun (j : ℕ) a =>
            { a with id := nid + j, chainID := strand.chainID,
                     res_seq_num := (i : ℤ) + 1,
                     coords := fun k =>
                       (R0 * _Ry 180).mulVec a.coords k + D k })).foldl
          MoleculeData.add_atom m,
        nid + (if strand.is_main.getD i false then tplF else tplR).length) := by
  unfold createAtomsStep
  rw [hR]
  simp only []
  rw [if_neg (by rw [hF]; simp)]
  rw [hD]
  by_cases hm : strand.is_main.getD i false
  · rw [if_pos hm, if_pos hm, hF]
    rfl
  · rw [if_neg hm, if_neg hm, hRv]
    rfl

/-- Witness for `atom_assembler_selects_and_places` on a one-base strand
with empty template sets. -/
theorem atom_assembler_selects_and_places_witness :
    createAtomsStep
      (AtomicStructureStrand.mk 0 [1] false false "sc.0.0" [true] ['A']
        [some 1] [some (fun _ => 0)])
      (fun _ => some []) (fun _ => some []) (MoleculeData.mk 0 [] [], 1) 0 =
      some (MoleculeData.mk 0 [] [], 1) := by
  have h := atom_assembler_selects_and_places
    (AtomicStructureStrand.mk 0 [1] false false "sc.0.0" [true] ['A']
      [some 1] [some (fun _ => 0)])
    (fun _ => some []) (fun _ => some []) (MoleculeData.mk 0 [] []) 1 0
    1 (fun _ => 0) [] [] rfl rfl rfl rfl
  simpa using h

theorem createAtomsStep_isSome (strand : AtomicStructureStrand)
    (fwd rev : Char → Option (List AtomRec)) (i : ℕ)
    (hcons : (strand.rotations.getD i none).isSome →
      (strand.translations.getD i none).isSome)
    (st : MoleculeData × ℤ) :
    (createAtomsStep strand fwd rev st i).isSome := by
  unfold createAtomsStep
  cases hr : strand.rotations.getD i none with
  | none => rfl
  | some R0 =>
    simp only []
    by_cases hk : (fwd ((strand.seq.getD i 'N').toUpper)).isNone
    · rw [if_pos hk]
      rfl
    · rw [if_neg hk]
      obtain ⟨D, hD⟩ := Option.isSome_iff_exists.mp (hcons (by rw [hr]; rfl))
      rw [hD]
      rfl

theorem foldlM_createAtomsStep_isSome (strand : AtomicStructureStrand)
    (fwd rev : Char → Option (List AtomRec)) (L : List ℕ)
    (hcons : ∀ j : ℕ, (strand.rotations.getD j none).isSome →
      (strand.translations.getD j none).isSome) :
    ∀ st : MoleculeData × ℤ,
      (L.foldlM (createAtomsStep strand fwd rev) st).isSome := by
  induction L with
  | nil => intro st; rfl
  | cons i L ih =>
    intro st
    rw [List.foldlM_cons]
    obtain ⟨st1, h1⟩ := Option.isSome_iff_exists.mp
      (createAtomsStep_isSome strand fwd rev i (hcons i) st)
    rw [h1]
    exact ih st1

/-- Claim C8: a base whose resolved sequence letter does not map to a known
template is skipped -- it contributes zero atoms and leaves the molecule
and the id counter unchanged -- and the run continues normally: under the
source's invariant that a translation accompanies every rotation, the
whole per-strand assembly still returns a result, so such a base never
aborts the generation. -/
theorem unknown_letter_recoverable (strand : AtomicStructureStrand)
    (base_conn : List BaseRec) (fwd rev : Char → Option (List AtomRec))
    (m : MoleculeData) (nid : ℤ) (i : ℕ) (R0 : Mat3)
    (hR : strand.rotations.getD i none = some R0)
    (hunk : fwd ((strand.seq.getD i 'N').toUpper) = none) :
    createAtomsStep strand fwd rev (m, nid) i = some (m, nid) ∧
    (∀ a : ℤ,
      (strand.tour.head?.bind (fun t => base_conn.get? (t - 1))).isSome →
      (∀ j : ℕ, (strand.rotations.getD j none).isSome →
        (strand.translations.getD j none).isSome) →
      (_create_atoms_from_strand base_conn strand fwd rev a).isSome) := by
  constructor
  · unfold createAtomsStep
    rw [hR]
    simp only []
    rw [if_pos (by rw [hunk]; rfl)]
    rfl
  · intro a hhead hcons
    unfold _create_atoms_from_strand
    obtain ⟨b, hb⟩ := Option.isSome_iff_exists.mp hhead
    rw [hb]
    exact foldlM_createAtomsStep_isSome strand fwd rev _ hcons _

/-- Witness for `unknown_letter_recoverable` on a one-base strand whose
letter is not a template key. -/
theorem unknown_letter_recoverable_witness :
    (createAtomsStep
      (AtomicStructureStrand.mk 0 [1] false false "st.0.0" [false] ['X']
        [some 1] [some (fun _ => 0)])
      (fun _ => none) (fun _ => none) (MoleculeData.mk 0 [] [], 5) 0 =
      some (MoleculeData.mk 0 [] [], 5)) ∧
    (∀ a : ℤ,
      ((AtomicStructureStrand.mk 0 [1] false false "st.0.0" [false] ['X']
        [some 1] [some (fun _ => 0)]).tour.head?.bind
          (fun t => [BaseRec.mk 1 0 'A'].get? (t - 1))).isSome →
      (∀ j : ℕ, ((AtomicStructureStrand.mk 0 [1] false false "st.0.0" [false]
        ['X'] [some 1] [some (fun _ => 0)]).rotations.getD j none).isSome →
        ((AtomicStructureStrand.mk 0 [1] false false "st.0.0" [false] ['X']
          [some 1] [some (fun _ => 0)]).translations.getD j none).isSome) →
      (_create_atoms_from_strand [BaseRec.mk 1 0 'A']
        (AtomicStructureStrand.mk 0 [1] false false "st.0.0" [false] ['X']
          [some 1] [some (fun _ => 0)])
        (fun _ => none) (fun _ => none) a).isSome) :=
  unknown_letter_recoverable
    (AtomicStructureStrand.mk 0 [1] false false "st.0.0" [false] ['X']
      [some 1] [some (fun _ => 0)])
    [BaseRec.mk 1 0 'A'] (fun _ => none) (fun _ => none)
    (MoleculeData.mk 0 [] []) 5 0 1 rfl rfl


theorem getD_set_self {α : Type} (l : List α) (i : ℕ) (a d : α)
    (h : i < l.length) : (l.set i a).getD i d = a := by
  rw [List.getD_eq_getElem _ _ (by simpa using h)]
  exact List.getElem_set_self _

theorem getD_set_ne {α : Type} (l : List α) (i j : ℕ) (a d : α) (h : i ≠ j) :
    (l.set i a).getD j d = l.getD j d := by
  by_cases hj : j < l.length
  · rw [List.getD_eq_getElem _ _ (by simpa using hj),
      List.getD_eq_getElem _ _ hj]
    exact List.getElem_set_ne h _
  · rw [List.getD_eq_default _ _ (by simpa using Nat.le_of_not_lt hj),
      List.getD_eq_default _ _ (Nat.le_of_not_lt hj)]

theorem get?_eq_some_getD {α : Type} (l : List α) (i : ℕ) (d : α)
    (h : i < l.length) : l.get? i = some (l.getD i d) := by
  rw [List.get?_eq_getElem?, List.getElem?_eq_getElem h,
    List.getD_eq_getElem _ _ h]

theorem writeBase_read_self (strands : List AtomicStructureStrand)
    (slot : ℕ × ℕ) (main : Bool) (c : Char) (Rv : Mat3) (dv : Vec3)
    (hin : SlotInRange strands slot) :
    strandRotAt (writeBase strands slot main c Rv dv) slot = some Rv ∧
    strandTransAt (writeBase strands slot main c Rv dv) slot = some dv ∧
    strandMainAt (writeBase strands slot main c Rv dv) slot = main := by
  obtain ⟨h1, h2, h3, h4⟩ := hin
  unfold strandRotAt strandTransAt strandMainAt writeBase
  rw [get?_eq_some_getD strands slot.1 defaultStrand h1]
  simp only []
  rw [getD_set_self _ _ _ _ h1]
  exact ⟨getD_set_self _ _ _ _ h2, getD_set_self _ _ _ _ h3,
    getD_set_self _ _ _ _ h4⟩

theorem writeBase_read_ne (strands : List AtomicStructureStrand)
    (slot slot' : ℕ × ℕ) (main : Bool) (c : Char) (Rv : Mat3) (dv : Vec3)
    (hne : slot ≠ slot') :
    strandRotAt (writeBase strands slot main c Rv dv) slot' =
      strandRotAt strands slot' ∧
    strandTransAt (writeBase strands slot main c Rv dv) slot' =
      strandTransAt strands slot' ∧
    strandMainAt (writeBase strands slot main c Rv dv) slot' =
      strandMainAt strands slot' := by
  unfold strandRotAt strandTransAt strandMainAt writeBase
  cases hget : strands.get? slot.1 with
  | none => exact ⟨rfl, rfl, rfl⟩
  | some s =>
    simp only []
    have hlt : slot.1 < strands.length := by
      by_contra hc
      rw [List.get?_eq_getElem?, List.getElem?_eq_none
        (Nat.le_of_not_lt hc)] at hget
      exact Option.noConfusion hget
    have hsd : s = strands.getD slot.1 defaultStrand := by
      have := get?_eq_some_getD strands slot.1 defaultStrand hlt
      rw [hget] at this
      exact Option.some.inj this
    by_cases hs : slot.1 = slot'.1
    · have hb : slot.2 ≠ slot'.2 := by
        intro hb2
        exact hne (Prod.ext hs hb2)
      rw [← hs, getD_set_self _ _ _ _ hlt]
      rw [hsd]
      exact ⟨getD_set_ne _ _ _ _ _ hb, getD_set_ne _ _ _ _ _ hb,
        getD_set_ne _ _ _ _ _ hb⟩
    · rw [getD_set_ne _ _ _ _ _ hs]
      exact ⟨rfl, rfl, rfl⟩

theorem writeBase_lengths (strands : List AtomicStructureStrand)
    (slot : ℕ × ℕ) (main : Bool) (c : Char) (Rv : Mat3) (dv : Vec3)
    (s' : ℕ) :
    (writeBase strands slot main c Rv dv).length = strands.length ∧
    ((writeBase strands slot main c Rv dv).getD s' defaultStrand).rotations.length
      = (strands.getD s' defaultStrand).rotations.length ∧
    ((writeBase strands slot main c Rv dv).getD s' defaultStrand).translations.length
      = (strands.getD s' defaultStrand).translations.length ∧
    ((writeBase strands slot main c Rv dv).getD s' defaultStrand).is_main.length
      = (strands.getD s' defaultStrand).is_main.length := by
  unfold writeBase
  cases hget : strands.get? slot.1 with
  | none => exact ⟨rfl, rfl, rfl, rfl⟩
  | some s =>
    simp only []
    have hlt : slot.1 < strands.length := by
      by_contra hc
      rw [List.get?_eq_getElem?, List.getElem?_eq_none
        (Nat.le_of_not_lt hc)] at hget
      exact Option.noConfusion hget
    have hsd : s = strands.getD slot.1 defaultStrand := by
      have := get?_eq_some_getD strands slot.1 defaultStrand hlt
      rw [hget] at this
      exact Option.some.inj this
    refine ⟨by simp, ?_, ?_, ?_⟩ <;>
    · by_cases hs : slot.1 = s'
      · rw [← hs, getD_set_self _ _ _ _ hlt, hsd]
        simp
      · rw [getD_set_ne _ _ _ _ _ hs]

theorem applyWrite_SlotInRange (strands : List AtomicStructureStrand)
    (w : (ℕ × ℕ) × Bool × Char × Mat3 × Vec3) (slot : ℕ × ℕ)
    (h : SlotInRange strands slot) :
    SlotInRange (applyWrite strands w) slot := by
  obtain ⟨h1, h2, h3, h4⟩ := h
  obtain ⟨e1, e2, e3, e4⟩ := writeBase_lengths strands w.1 w.2.1 w.2.2.1
    w.2.2.2.1 w.2.2.2.2 slot.1
  exact ⟨by rw [applyWrite, e1]; exact h1, by rw [applyWrite, e2]; exact h2,
    by rw [applyWrite, e3]; exact h3, by rw [applyWrite, e4]; exact h4⟩

theorem foldl_applyWrite_untouched
    (ws : List ((ℕ × ℕ) × Bool × Char × Mat3 × Vec3)) :
    ∀ (strands : List AtomicStructureStrand) (slot : ℕ × ℕ),
      (∀ w ∈ ws, w.1 ≠ slot) →
      strandRotAt (ws.foldl applyWrite strands) slot = strandRotAt strands slot ∧
      strandTransAt (ws.foldl applyWrite strands) slot = strandTransAt strands slot ∧
      strandMainAt (ws.foldl applyWrite strands) slot = strandMainAt strands slot := by
  induction ws with
  | nil => intro strands slot _; exact ⟨rfl, rfl, rfl⟩
  | cons w0 ws ih =>
    intro strands slot hne
    rw [List.foldl_cons]
    have h0 := writeBase_read_ne strands w0.1 slot w0.2.1 w0.2.2.1 w0.2.2.2.1
      w0.2.2.2.2 (hne w0 (List.mem_cons_self w0 ws))
    have htail := ih (applyWrite strands w0) slot
      (fun w hw => hne w (List.mem_cons_of_mem _ hw))
    exact ⟨htail.1.trans h0.1, htail.2.1.trans h0.2.1, htail.2.2.trans h0.2.2⟩

theorem foldl_applyWrite_mem
    (ws : List ((ℕ × ℕ) × Bool × Char × Mat3 × Vec3)) :
    ∀ (strands : List AtomicStructureStrand)
      (w : (ℕ × ℕ) × Bool × Char × Mat3 × Vec3),
      w ∈ ws → (ws.map Prod.fst).Nodup → SlotInRange strands w.1 →
      strandRotAt (ws.foldl applyWrite strands) w.1 = some w.2.2.2.1 ∧
      strandTransAt (ws.foldl applyWrite strands) w.1 = some w.2.2.2.2 ∧
      strandMainAt (ws.foldl applyWrite strands) w.1 = w.2.1 := by
  induction ws with
  | nil => intro strands w hw; exact absurd hw (List.not_mem_nil w)
  | cons w0 ws ih =>
    intro strands w hw hnd hin
    rw [List.foldl_cons]
    rcases List.mem_cons.mp hw with heq | hw'
    · subst heq
      have hnd2 : (w.1 :: ws.map Prod.fst).Nodup := by
        rw [List.map_cons] at hnd
        exact hnd
      have hnot : ∀ w' ∈ ws, w'.1 ≠ w.1 := by
        intro w' hw' hfst
        have hmem : w.1 ∈ ws.map Prod.fst :=
          List.mem_map.mpr ⟨w', hw', hfst⟩
        exact (List.nodup_cons.mp hnd2).1 hmem
      have hu := foldl_applyWrite_untouched ws (applyWrite strands w) w.1 hnot
      have hself := writeBase_read_self strands w.1 w.2.1 w.2.2.1 w.2.2.2.1
        w.2.2.2.2 hin
      exact ⟨hu.1.trans hself.1, hu.2.1.trans hself.2.1,
        hu.2.2.trans hself.2.2⟩
    · have hnd2 : (w0.1 :: ws.map Prod.fst).Nodup := by
        rw [List.map_cons] at hnd
        exact hnd
      have hnd' : (ws.map Prod.fst).Nodup := (List.nodup_cons.mp hnd2).2
      exact ih (applyWrite strands w0) w hw' hnd'
        (applyWrite_SlotInRange strands w0 w.1 hin)


theorem pre_frames_getD (d : DnaStructureData) (i : ℕ)
    (hf : d.helix_axis_frames.length = d.id_nt.length)
    (hm : i < d.id_nt.length) :
    (generateStructurePre d).helix_axis_frames.getD i 0 =
      flipTriad (d.helix_axis_frames.getD i 0) := by
  have hi : i < d.helix_axis_frames.length := by rw [hf]; exact hm
  show (flipTriads d.helix_axis_frames d.id_nt.length).getD i 0 = _
  rw [flipTriads_eq_map _ _ (le_of_eq hf)]
  rw [List.getD_eq_getElem _ _ (by simpa using hi), List.getElem_map,
    List.getD_eq_getElem _ _ hi]

theorem pre_coords_getD (d : DnaStructureData) (i : ℕ)
    (hc : d.helix_axis_coords.length = d.id_nt.length)
    (hm : i < d.id_nt.length) :
    (generateStructurePre d).helix_axis_coords.getD i (fun _ => 0) =
      fun k => 10 * d.helix_axis_coords.getD i (fun _ => 0) k := by
  have hi : i < d.helix_axis_coords.length := by rw [hc]; exact hm
  show (scaleBaseNodes d.helix_axis_coords d.id_nt.length).getD i (fun _ => 0) = _
  rw [scaleBaseNodes_eq_map _ _ (le_of_eq hc)]
  rw [List.getD_eq_getElem _ _ (by simpa using hi), List.getElem_map,
    List.getD_eq_getElem _ _ hi]

theorem pairWrites_slots (d : DnaStructureData)
    (strands : List AtomicStructureStrand) :
    (pairWrites (generateStructurePre d) strands).map Prod.fst =
      (List.range d.id_nt.length).flatMap
        (fun j => [pairSlot1 d strands j, pairSlot2 d strands j]) := by
  rw [pairWrites, List.map_flatMap]
  rfl

theorem pairWrite1_mem (d : DnaStructureData)
    (strands : List AtomicStructureStrand) (i : ℕ) (hm : i < d.id_nt.length) :
    pairWrite1 d strands i ∈ pairWrites d strands :=
  List.mem_flatMap.mpr ⟨i, List.mem_range.mpr hm, by simp⟩

theorem pairWrite2_mem (d : DnaStructureData)
    (strands : List AtomicStructureStrand) (i : ℕ) (hm : i < d.id_nt.length) :
    pairWrite2 d strands i ∈ pairWrites d strands :=
  List.mem_flatMap.mpr ⟨i, List.mem_range.mpr hm, by simp⟩

/-- Claim C5: for every entry i of the pairing table, the Frame
Initializer assigns both bases of the pair the identical rotation -- the
pair's sign-flipped triad composed with the fixed basis change `rot_mat`
mapping [e1 e2 e3] to [-e2 e3 -e1] -- and the identical translation --
the pair's axis coordinate scaled by 10 -- marks the first-listed base
`is_main = true` and its partner `is_main = false`, and leaves every base
slot with no pairing entry with rotation and translation unset.  The
hypotheses ask that the table's slots be pairwise distinct and in range
(the source assumes a well-formed pairing table). -/
theorem frame_initializer_assigns (d : DnaStructureData)
    (strands0 : List AtomicStructureStrand) (i : ℕ)
    (hm : i < d.id_nt.length)
    (hc : d.helix_axis_coords.length = d.id_nt.length)
    (hf : d.helix_axis_frames.length = d.id_nt.length)
    (hnodup : ((List.range d.id_nt.length).flatMap
      (fun j => [pairSlot1 d strands0 j, pairSlot2 d strands0 j])).Nodup)
    (hin1 : SlotInRange strands0 (pairSlot1 d strands0 i))
    (hin2 : SlotInRange strands0 (pairSlot2 d strands0 i)) :
    (strandRotAt (generate_structure_frames d strands0).2 (pairSlot1 d strands0 i) =
        some (flipTriad (d.helix_axis_frames.getD i 0) * rot_mat) ∧
      strandRotAt (generate_structure_frames d strands0).2 (pairSlot2 d strands0 i) =
        some (flipTriad (d.helix_axis_frames.getD i 0) * rot_mat)) ∧
    (strandTransAt (generate_structure_frames d strands0).2 (pairSlot1 d strands0 i) =
        some (fun k => 10 * d.helix_axis_coords.getD i (fun _ => 0) k) ∧
      strandTransAt (generate_structure_frames d strands0).2 (pairSlot2 d strands0 i) =
        some (fun k => 10 * d.helix_axis_coords.getD i (fun _ => 0) k)) ∧
    (strandMainAt (generate_structure_frames d strands0).2 (pairSlot1 d strands0 i) = true ∧
      strandMainAt (generate_structure_frames d strands0).2 (pairSlot2 d strands0 i) = false) ∧
    (∀ slot : ℕ × ℕ,
      (∀ j : ℕ, j < d.id_nt.length →
        pairSlot1 d strands0 j ≠ slot ∧ pairSlot2 d strands0 j ≠ slot) →
      strandRotAt strands0 slot = none →
      strandTransAt strands0 slot = none →
      strandRotAt (generate_structure_frames d strands0).2 slot = none ∧
      strandTransAt (generate_structure_frames d strands0).2 slot = none) := by
  have hresult : (generate_structure_frames d strands0).2 =
      (pairWrites (generateStructurePre d) strands0).foldl applyWrite strands0 := rfl
  have hnd : ((pairWrites (generateStructurePre d) strands0).map Prod.fst).Nodup := by
    rw [pairWrites_slots]
    exact hnodup
  have hmPre : i < (generateStructurePre d).id_nt.length := hm
  have hw1 := foldl_applyWrite_mem (pairWrites (generateStructurePre d) strands0)
    strands0 (pairWrite1 (generateStructurePre d) strands0 i)
    (pairWrite1_mem _ _ _ hmPre) hnd hin1
  have hw2 := foldl_applyWrite_mem (pairWrites (generateStructurePre d) strands0)
    strands0 (pairWrite2 (generateStructurePre d) strands0 i)
    (pairWrite2_mem _ _ _ hmPre) hnd hin2
  rw [← hresult] at hw1 hw2
  have hframe : (generateStructurePre d).helix_axis_frames.getD i 0 * rot_mat =
      flipTriad (d.helix_axis_frames.getD i 0) * rot_mat := by
    rw [pre_frames_getD d i hf hm]
  have hcoord : (generateStructurePre d).helix_axis_coords.getD i (fun _ => 0) =
      fun k => 10 * d.helix_axis_coords.getD i (fun _ => 0) k :=
    pre_coords_getD d i hc hm
  refine ⟨⟨?_, ?_⟩, ⟨?_, ?_⟩, ⟨?_, ?_⟩, ?_⟩
  · rw [show pairSlot1 d strands0 i =
      (pairWrite1 (generateStructurePre d) strands0 i).1 from rfl]
    rw [hw1.1]
    rw [show (pairWrite1 (generateStructurePre d) strands0 i).2.2.2.1 =
      (generateStructurePre d).helix_axis_frames.getD i 0 * rot_mat from rfl, hframe]
  · rw [show pairSlot2 d strands0 i =
      (pairWrite2 (generateStructurePre d) strands0 i).1 from rfl]
    rw [hw2.1]
    rw [show (pairWrite2 (generateStructurePre d) strands0 i).2.2.2.1 =
      (generateStructurePre d).helix_axis_frames.getD i 0 * rot_mat from rfl, hframe]
  · rw [show pairSlot1 d strands0 i =
      (pairWrite1 (generateStructurePre d) strands0 i).1 from rfl]
    rw [hw1.2.1]
    rw [show (pairWrite1 (generateStructurePre d) strands0 i).2.2.2.2 =
      (generateStructurePre d).helix_axis_coords.getD i (fun _ => 0) from rfl, hcoord]
  · rw [show pairSlot2 d strands0 i =
      (pairWrite2 (generateStructurePre d) strands0 i).1 from rfl]
    rw [hw2.2.1]
    rw [show (pairWrite2 (generateStructurePre d) strands0 i).2.2.2.2 =
      (generateStructurePre d).helix_axis_coords.getD i (fun _ => 0) from rfl, hcoord]
  · rw [show pairSlot1 d strands0 i =
      (pairWrite1 (generateStructurePre d) strands0 i).1 from rfl]
    exact hw1.2.2
  · rw [show pairSlot2 d strands0 i =
      (pairWrite2 (generateStructurePre d) strands0 i).1 from rfl]
    exact hw2.2.2
  · intro slot hslot hrot htrans
    have hne : ∀ w ∈ pairWrites (generateStructurePre d) strands0, w.1 ≠ slot := by
      intro w hw
      obtain ⟨j, hj, hw2⟩ := List.mem_flatMap.mp hw
      have hjm : j < d.id_nt.length := List.mem_range.mp hj
      rcases List.mem_cons.mp hw2 with heq | hw3
      · subst heq
        exact (hslot j hjm).1
      · rcases List.mem_cons.mp hw3 with heq | hw4
        · subst heq
          exact (hslot j hjm).2
        · exact absurd hw4 (List.not_mem_nil _)
    have hu := foldl_applyWrite_untouched
      (pairWrites (generateStructurePre d) strands0) strands0 slot hne
    rw [← hresult] at hu
    exact ⟨hu.1.trans hrot, hu.2.1.trans htrans⟩


/-- Witness for `frame_initializer_assigns`: a structure with one pairing
entry between two one-base strands. -/
theorem frame_initializer_assigns_witness :
    (strandRotAt (generate_structure_frames
        (DnaStructureData.mk [BaseRec.mk 1 0 'A', BaseRec.mk 2 1 'T']
          [fun _ => 1] [1] [(0, 1)])
        [AtomicStructureStrand.init 0 [1] true false 0 0,
         AtomicStructureStrand.init 1 [2] false false 0 0]).2
      (pairSlot1 (DnaStructureData.mk [BaseRec.mk 1 0 'A', BaseRec.mk 2 1 'T']
          [fun _ => 1] [1] [(0, 1)])
        [AtomicStructureStrand.init 0 [1] true false 0 0,
         AtomicStructureStrand.init 1 [2] false false 0 0] 0) =
      some (flipTriad ((DnaStructureData.mk [BaseRec.mk 1 0 'A', BaseRec.mk 2 1 'T']
          [fun _ => 1] [1] [(0, 1)]).helix_axis_frames.getD 0 0) * rot_mat) ∧
     strandRotAt (generate_structure_frames
        (DnaStructureData.mk [BaseRec.mk 1 0 'A', BaseRec.mk 2 1 'T']
          [fun _ => 1] [1] [(0, 1)])
        [AtomicStructureStrand.init 0 [1] true false 0 0,
         AtomicStructureStrand.init 1 [2] false false 0 0]).2
      (pairSlot2 (DnaStructureData.mk [BaseRec.mk 1 0 'A', BaseRec.mk 2 1 'T']
          [fun _ => 1] [1] [(0, 1)])
        [AtomicStructureStrand.init 0 [1] true false 0 0,
         AtomicStructureStrand.init 1 [2] false false 0 0] 0) =
      some (flipTriad ((DnaStructureData.mk [BaseRec.mk 1 0 'A', BaseRec.mk 2 1 'T']
          [fun _ => 1] [1] [(0, 1)]).helix_axis_frames.getD 0 0) * rot_mat)) ∧
    (strandMainAt (generate_structure_frames
        (DnaStructureData.mk [BaseRec.mk 1 0 'A', BaseRec.mk 2 1 'T']
          [fun _ => 1] [1] [(0, 1)])
        [AtomicStructureStrand.init 0 [1] true false 0 0,
         AtomicStructureStrand.init 1 [2] false false 0 0]).2
      (pairSlot1 (DnaStructureData.mk [BaseRec.mk 1 0 'A', BaseRec.mk 2 1 'T']
          [fun _ => 1] [1] [(0, 1)])
        [AtomicStructureStrand.init 0 [1] true false 0 0,
         AtomicStructureStrand.init 1 [2] false false 0 0] 0) = true ∧
     strandMainAt (generate_structure_frames
        (DnaStructureData.mk [BaseRec.mk 1 0 'A', BaseRec.mk 2 1 'T']
          [fun _ => 1] [1] [(0, 1)])
        [AtomicStructureStrand.init 0 [1] true false 0 0,
         AtomicStructureStrand.init 1 [2] false false 0 0]).2
      (pairSlot2 (DnaStructureData.mk [BaseRec.mk 1 0 'A', BaseRec.mk 2 1 'T']
          [fun _ => 1] [1] [(0, 1)])
        [AtomicStructureStrand.init 0 [1] true false 0 0,
         AtomicStructureStrand.init 1 [2] false false 0 0] 0) = false) := by
  have h := frame_initializer_assigns
    (DnaStructureData.mk [BaseRec.mk 1 0 'A', BaseRec.mk 2 1 'T']
      [fun _ => 1] [1] [(0, 1)])
    [AtomicStructureStrand.init 0 [1] true false 0 0,
     AtomicStructureStrand.init 1 [2] false false 0 0] 0
    (by decide) rfl rfl (by decide)
    ⟨by decide, by decide, by decide, by decide⟩
    ⟨by decide, by decide, by decide, by decide⟩
  exact ⟨h.1, h.2.2.1⟩


theorem scanUp_linear (num_nt : ℕ) :
    ∀ (fuel : ℕ) (visited : List Bool) (run : List ℕ) (i : ℕ), i < num_nt →
      ∃ m : ℕ, (scanUp false num_nt visited run i fuel).2 = run ++ List.range' i m ∧
        i + m ≤ num_nt := by
  intro fuel
  induction fuel with
  | zero =>
    intro visited run i hi
    exact ⟨0, by simp [scanUp], by omega⟩
  | succ fuel ih =>
    intro visited run i hi
    simp only [scanUp]
    by_cases hv : visited.getD i true
    · rw [if_pos hv]
      exact ⟨0, by simp, by omega⟩
    · rw [if_neg hv]
      by_cases hlt : i < num_nt - 1
      · rw [if_pos hlt]
        obtain ⟨m, he, hb⟩ := ih (visited.set i true) (run ++ [i]) (i + 1) (by omega)
        refine ⟨m + 1, ?_, by omega⟩
        rw [he, List.range'_succ, List.append_assoc]
        rfl
      · rw [if_neg hlt]
        simp only [Bool.false_eq_true, if_false]
        refine ⟨1, ?_, by omega⟩
        rw [List.range'_succ]
        rfl

theorem scanUp_fst_length (circ : Bool) (num_nt : ℕ) :
    ∀ (fuel : ℕ) (visited : List Bool) (run : List ℕ) (i : ℕ),
      (scanUp circ num_nt visited run i fuel).1.length = visited.length := by
  intro fuel
  induction fuel with
  | zero => intro visited run i; rfl
  | succ fuel ih =>
    intro visited run i
    simp only [scanUp]
    by_cases hv : visited.getD i true
    · rw [if_pos hv]
    · rw [if_neg hv]
      by_cases hlt : i < num_nt - 1
      · rw [if_pos hlt, ih]
        simp
      · rw [if_neg hlt]
        cases circ
        · simp
        · simp only [if_true]
          rw [ih]
          simp

theorem scanDown_fst_length (circ : Bool) (num_nt : ℕ) :
    ∀ (fuel : ℕ) (visited : List Bool) (run : List ℕ) (i : ℕ),
      (scanDown circ num_nt visited run i fuel).1.length = visited.length := by
  intro fuel
  induction fuel with
  | zero => intro visited run i; rfl
  | succ fuel ih =>
    intro visited run i
    simp only [scanDown]
    by_cases hv : visited.getD i true
    · rw [if_pos hv]
    · rw [if_neg hv]
      by_cases hlt : 0 < i
      · rw [if_pos hlt, ih]
        simp
      · rw [if_neg hlt]
        cases circ
        · simp
        · simp only [if_true]
          rw [ih]
          simp

theorem findSingleStrandsLoop_linear (num_nt : ℕ) :
    ∀ (fuel : ℕ) (visited : List Bool) (acc : List (List ℕ)),
      visited.length = num_nt →
      (∀ r ∈ acc, ∃ i0 m, r = List.range' i0 m ∧ i0 + m ≤ num_nt) →
      ∀ r ∈ findSingleStrandsLoop false num_nt visited acc fuel,
        ∃ i0 m, r = List.range' i0 m ∧ i0 + m ≤ num_nt := by
  intro fuel
  induction fuel with
  | zero => intro visited acc _ hacc r hr; exact hacc r hr
  | succ fuel ih =>
    intro visited acc hlen hacc r hr
    simp only [findSingleStrandsLoop] at hr
    cases hidx : visited.findIdx? (fun v => !v) with
    | none =>
      rw [hidx] at hr
      exact hacc r hr
    | some i0 =>
      rw [hidx] at hr
      have hi0 : i0 < num_nt := by
        have := (List.findIdx?_eq_some_iff_findIdx_eq.mp hidx).1
        omega
      obtain ⟨m, he, hb⟩ := scanUp_linear num_nt (num_nt + 1)
        ((scanDown false num_nt visited [] i0 (num_nt + 1)).1.set i0 false)
        [] i0 hi0
      refine ih _ _ ?_ ?_ r hr
      · rw [scanUp_fst_length]
        simp [scanDown_fst_length, hlen]
      · intro r' hr'
        rcases List.mem_append.mp hr' with h1 | h2
        · exact hacc r' h1
        · have : r' = (scanUp false num_nt
              ((scanDown false num_nt visited [] i0 (num_nt + 1)).1.set i0 false)
              [] i0 (num_nt + 1)).2 := by
            cases List.mem_singleton.mp h2
            rfl
          rw [this, he]
          exact ⟨i0, m, by simp, hb⟩

theorem find_single_strands_linear {α : Type} (rotations : List (Option α)) :
    ∀ r ∈ _find_single_strands rotations false,
      ∃ i0 m, r = List.range' i0 m ∧ i0 + m ≤ rotations.length := by
  intro r hr
  exact findSingleStrandsLoop_linear rotations.length (rotations.length + 1)
    (rotations.map Option.isSome) [] (by simp) (by intro r' hr'; cases hr')
    r hr

theorem kept_run_interior {α : Type} (rotations : List (Option α))
    (r : List ℕ)
    (hr : r ∈ (_find_single_strands rotations false).map
      (fun r => if r.headD 0 = 0 ∨ r.getLastD 0 = rotations.length - 1
        then [] else r)) :
    0 ∉ r ∧ rotations.length - 1 ∉ r := by
  obtain ⟨r0, hr0, hmap⟩ := List.mem_map.mp hr
  obtain ⟨i0, m, hre, hb⟩ := find_single_strands_linear rotations r0 hr0
  by_cases hcond : r0.headD 0 = 0 ∨ r0.getLastD 0 = rotations.length - 1
  · rw [if_pos hcond] at hmap
    rw [← hmap]
    exact ⟨List.not_mem_nil 0, List.not_mem_nil _⟩
  · rw [if_neg hcond] at hmap
    subst hmap
    push_neg at hcond
    constructor
    · intro h0
      obtain ⟨j, hj, hjE⟩ := List.mem_range'.mp (hre ▸ h0)
      have hi00 : i0 = 0 := by omega
      have hm0 : 0 < m := by omega
      apply hcond.1
      rw [hre, hi00]
      obtain ⟨m', rfl⟩ := Nat.exists_eq_succ_of_ne_zero (Nat.pos_iff_ne_zero.mp hm0)
      rw [List.range'_succ]
      rfl
    · intro hlast
      obtain ⟨j, hj, hjE⟩ := List.mem_range'.mp (hre ▸ hlast)
      have hm0 : 0 < m := by omega
      apply hcond.2
      obtain ⟨m', rfl⟩ := Nat.exists_eq_succ_of_ne_zero (Nat.pos_iff_ne_zero.mp hm0)
      rw [hre, List.range'_concat, List.getLastD_concat]
      omega

theorem foldl_bulgeWrite_preserve :
    ∀ (L : List (ℕ × Mat3 × Vec3)) (st : BulgeArrays) (k : ℕ),
      (∀ p ∈ L, p.1 ≠ k) →
      (L.foldl bulgeWrite st).rotations.getD k none =
        st.rotations.getD k none := by
  intro L
  induction L with
  | nil => intro st k _; rfl
  | cons p L ih =>
    intro st k hne
    rw [List.foldl_cons, ih _ _ (fun q hq => hne q (List.mem_cons_of_mem _ hq))]
    exact getD_set_ne _ _ _ _ _ (hne p (List.mem_cons_self p L))

theorem processSingleStrand_preserve (num_nt : ℕ) (st : BulgeArrays)
    (r : List ℕ) (st' : BulgeArrays) (k : ℕ) (hk : k ∉ r)
    (h : processSingleStrand num_nt st r = some st') :
    st'.rotations.getD k none = st.rotations.getD k none := by
  unfold processSingleStrand at h
  by_cases h0 : r.length = 0
  · rw [if_pos h0] at h
    cases Option.some.inj h
    rfl
  · rw [if_neg h0] at h
    obtain ⟨R1, hA, h⟩ := Option.bind_eq_some.mp h
    obtain ⟨d1, hB, h⟩ := Option.bind_eq_some.mp h
    obtain ⟨R2, hC, h⟩ := Option.bind_eq_some.mp h
    obtain ⟨d2, hD, h⟩ := Option.bind_eq_some.mp h
    obtain ⟨fit, hE, h⟩ := Option.bind_eq_some.mp h
    cases Option.some.inj h
    apply foldl_bulgeWrite_preserve
    intro p hp
    intro hpk
    exact hk (hpk ▸ (List.of_mem_zip hp).1)

theorem bulge_foldlM_preserve (num_nt : ℕ) :
    ∀ (runs : List (List ℕ)) (st st' : BulgeArrays) (k : ℕ),
      (∀ r ∈ runs, k ∉ r) →
      runs.foldlM (processSingleStrand num_nt) st = some st' →
      st'.rotations.getD k none = st.rotations.getD k none := by
  intro runs
  induction runs with
  | nil =>
    intro st st' k _ h
    cases Option.some.inj h
    rfl
  | cons r runs ih =>
    intro st st' k hk h
    rw [List.foldlM_cons] at h
    obtain ⟨st1, h1, h2⟩ := Option.bind_eq_some.mp h
    have e1 := processSingleStrand_preserve num_nt st r st1 k
      (hk r (List.mem_cons_self r runs)) h1
    have e2 := ih st1 st' k (fun r' hr' => hk r' (List.mem_cons_of_mem _ hr')) h2
    exact e2.trans e1

theorem generate_bulge_dof_linear_preserve (rotations : List (Option Mat3))
    (translations : List (Option Vec3)) (is_main : List Bool)
    (st' : BulgeArrays) (k : ℕ)
    (hk0 : k = 0 ∨ k = rotations.length - 1)
    (h : _generate_bulge_dof rotations translations is_main false = some st') :
    st'.rotations.getD k none = rotations.getD k none := by
  unfold _generate_bulge_dof at h
  simp only [] at h
  rw [if_pos (by simp : ¬ (false : Bool) = true)] at h
  have := bulge_foldlM_preserve rotations.length
    ((_find_single_strands rotations false).map
      (fun r => if r.headD 0 = 0 ∨ r.getLastD 0 = rotations.length - 1
        then [] else r))
    (BulgeArrays.mk rotations translations is_main) st' k ?_ h
  · exact this
  · intro r hr
    rcases hk0 with rfl | rfl
    · exact (kept_run_interior rotations r hr).1
    · exact (kept_run_interior rotations r hr).2


theorem createAtomsStep_skip (strand : AtomicStructureStrand)
    (fwd rev : Char → Option (List AtomRec)) (st : MoleculeData × ℤ) (p : ℕ)
    (h : strand.rotations.getD p none = none) :
    createAtomsStep strand fwd rev st p = some st := by
  unfold createAtomsStep
  rw [h]
  rfl

theorem createAtomsStep_count (strand : AtomicStructureStrand)
    (fwd rev : Char → Option (List AtomRec)) (m : MoleculeData) (nid : ℤ)
    (p : ℕ) (out : MoleculeData × ℤ) (T : ℕ)
    (hT : ∀ c tpl, fwd c = some tpl → tpl.length = T)
    (hTrev : ∀ c tpl, rev c = some tpl → tpl.length = T)
    (h : createAtomsStep strand fwd rev (m, nid) p = some out) :
    out.1.atoms.length ≤ m.atoms.length + T := by
  unfold createAtomsStep at h
  cases hr : strand.rotations.getD p none with
  | none =>
    rw [hr] at h
    cases Option.some.inj h
    exact Nat.le_add_right _ _
  | some R0 =>
    rw [hr] at h
    simp only [] at h
    by_cases hk : (fwd ((strand.seq.getD p 'N').toUpper)).isNone
    · rw [if_pos hk] at h
      cases Option.some.inj h
      exact Nat.le_add_right _ _
    · rw [if_neg hk] at h
      obtain ⟨D, hD, h⟩ := Option.bind_eq_some.mp h
      cases Option.some.inj h
      have hlen : (if strand.is_main.getD p false then
          (fwd ((strand.seq.getD p 'N').toUpper)).getD []
        else (rev ((strand.seq.getD p 'N').toUpper)).getD []).length ≤ T := by
        by_cases hm : strand.is_main.getD p false
        · rw [if_pos hm]
          cases hfwd : fwd ((strand.seq.getD p 'N').toUpper) with
          | none => rw [hfwd] at hk; simp at hk
          | some tpl =>
            simp only [Option.getD_some]
            exact le_of_eq (hT _ _ hfwd)
        · rw [if_neg hm]
          cases hrev : rev ((strand.seq.getD p 'N').toUpper) with
          | none => simp
          | some tpl =>
            simp only [Option.getD_some]
            exact le_of_eq (hTrev _ _ hrev)
      rw [foldl_add_atom_atoms]
      simp only [List.length_append, List.length_mapIdx]
      omega

theorem foldlM_createAtomsStep_count (strand : AtomicStructureStrand)
    (fwd rev : Char → Option (List AtomRec)) (T : ℕ)
    (hT : ∀ c tpl, fwd c = some tpl → tpl.length = T)
    (hTrev : ∀ c tpl, rev c = some tpl → tpl.length = T) :
    ∀ (L : List ℕ) (m : MoleculeData) (nid : ℤ) (out : MoleculeData × ℤ),
      L.foldlM (createAtomsStep strand fwd rev) (m, nid) = some out →
      out.1.atoms.length ≤ m.atoms.length + T * L.length := by
  intro L
  induction L with
  | nil =>
    intro m nid out h
    cases Option.some.inj h
    simp
  | cons i L ih =>
    intro m nid out h
    rw [List.foldlM_cons] at h
    obtain ⟨st1, h1, h2⟩ := Option.bind_eq_some.mp h
    have e1 := createAtomsStep_count strand fwd rev m nid i st1 T hT hTrev h1
    have e2 := ih st1.1 st1.2 out (by rw [Prod.mk.eta]; exact h2)
    simp only [List.length_cons]
    have : T * (L.length + 1) = T * L.length + T := by ring
    omega

theorem create_atoms_unset_count (base_conn : List BaseRec)
    (strand : AtomicStructureStrand)
    (fwd rev : Char → Option (List AtomRec)) (a : ℤ) (mol : MoleculeData)
    (nid' : ℤ) (T p : ℕ)
    (hp : p < strand.tour.length)
    (hunset : strand.rotations.getD p none = none)
    (hT : ∀ c tpl, fwd c = some tpl → tpl.length = T)
    (hTrev : ∀ c tpl, rev c = some tpl → tpl.length = T)
    (hT1 : 1 ≤ T)
    (h : _create_atoms_from_strand base_conn strand fwd rev a = some (mol, nid')) :
    mol.atoms.length < T * strand.tour.length := by
  unfold _create_atoms_from_strand at h
  obtain ⟨b, hb, h⟩ := Option.bind_eq_some.mp h
  obtain ⟨L1, L2, hsplit⟩ := List.append_of_mem (List.mem_range.mpr hp)
  have hlen : L1.length + 1 + L2.length = strand.tour.length := by
    have := congrArg List.length hsplit
    simp at this
    omega
  rw [hsplit, List.foldlM_append] at h
  obtain ⟨st1, h1, h2⟩ := Option.bind_eq_some.mp h
  rw [List.foldlM_cons] at h2
  rw [createAtomsStep_skip strand fwd rev st1 p hunset] at h2
  have h2' : L2.foldlM (createAtomsStep strand fwd rev) (st1.1, st1.2) =
      some (mol, nid') := by
    rw [Prod.mk.eta]
    exact h2
  have e1 := foldlM_createAtomsStep_count strand fwd rev T hT hTrev L1
    (MoleculeData.mk strand.id [] []) a st1 h1
  have e2 := foldlM_createAtomsStep_count strand fwd rev T hT hTrev L2
    st1.1 st1.2 (mol, nid') h2'
  simp only [] at e1 e2
  simp only [List.length_nil] at e1
  have hmol : mol.atoms.length ≤ T * L1.length + T * L2.length := by
    omega
  have hlt : T * (L1.length + L2.length) < T * strand.tour.length :=
    mul_lt_mul_of_pos_left (by omega) (by omega)
  calc mol.atoms.length ≤ T * L1.length + T * L2.length := hmol
    _ = T * (L1.length + L2.length) := by ring
    _ < T * strand.tour.length := hlt

/-- Claim C7: for a non-circular strand with an unpaired base at tour
position 0 or at the last tour position, that end position remains unset
after bulge interpolation (its region is discarded rather than filled),
the Atom Assembler emits no atoms for it, and the strand's total emitted
atom count is strictly less than the uniform template atom count times the
base count. -/
theorem linear_end_unset_stays_and_fewer_atoms
    (rotations : List (Option Mat3)) (translations : List (Option Vec3))
    (is_main : List Bool) (st' : BulgeArrays)
    (base_conn : List BaseRec) (strand : AtomicStructureStrand)
    (fwd rev : Char → Option (List AtomRec)) (a : ℤ) (mol : MoleculeData)
    (nid' : ℤ) (T p : ℕ)
    (hp0 : p = 0 ∨ p = rotations.length - 1)
    (hunset : rotations.getD p none = none)
    (hbulge : _generate_bulge_dof rotations translations is_main false = some st')
    (hrot : strand.rotations = st'.rotations)
    (hp : p < strand.tour.length)
    (hT : ∀ c tpl, fwd c = some tpl → tpl.length = T)
    (hTrev : ∀ c tpl, rev c = some tpl → tpl.length = T)
    (hT1 : 1 ≤ T)
    (hatoms : _create_atoms_from_strand base_conn strand fwd rev a =
      some (mol, nid')) :
    st'.rotations.getD p none = none ∧
    mol.atoms.length < T * strand.tour.length := by
  have h1 : st'.rotations.getD p none = none :=
    (generate_bulge_dof_linear_preserve rotations translations is_main st' p
      hp0 hbulge).trans hunset
  refine ⟨h1, ?_⟩
  exact create_atoms_unset_count base_conn strand fwd rev a mol nid' T p hp
    (by rw [hrot]; exact h1) hT hTrev hT1 hatoms

/-- Witness for `linear_end_unset_stays_and_fewer_atoms`: a linear
two-base strand whose first base is unpaired; the template tables are
empty, a uniform template size 1 holds vacuously, and zero atoms are
emitted, strictly fewer than 1 * 2. -/
theorem linear_end_unset_stays_and_fewer_atoms_witness :
    ((BulgeArrays.mk [none, some 1] [none, some (fun _ => 0)]
      [false, true]).rotations.getD 0 none = none) ∧
    (MoleculeData.mk 0 [] []).atoms.length <
      1 * (AtomicStructureStrand.mk 0 [1, 2] false false "st.0.0"
        [false, true] ['A', 'A'] [none, some 1]
        [none, some (fun _ => 0)]).tour.length :=
  linear_end_unset_stays_and_fewer_atoms
    [none, some 1] [none, some (fun _ => 0)] [false, true]
    (BulgeArrays.mk [none, some 1] [none, some (fun _ => 0)] [false, true])
    [BaseRec.mk 1 0 'A', BaseRec.mk 2 0 'A']
    (AtomicStructureStrand.mk 0 [1, 2] false false "st.0.0" [false, true]
      ['A', 'A'] [none, some 1] [none, some (fun _ => 0)])
    (fun _ => none) (fun _ => none) 5 (MoleculeData.mk 0 [] []) 5 1 0
    (Or.inl rfl) rfl rfl rfl (by decide)
    (fun c tpl h => Option.noConfusion h)
    (fun c tpl h => Option.noConfusion h)
    (le_refl 1) rfl


/-- Rodrigues construction on a unit axis: the internal normalization
divides by 1 and the matrix takes its textbook closed form. -/
theorem vrrotvec2mat_unit (u : Vec3) (θ : ℝ)
    (hu : u 0 ^ 2 + u 1 ^ 2 + u 2 ^ 2 = 1) :
    _vrrotvec2mat u θ = Matrix.of
      ![![(1 - Real.cos θ) * u 0 * u 0 + Real.cos θ,
          (1 - Real.cos θ) * u 0 * u 1 - Real.sin θ * u 2,
          (1 - Real.cos θ) * u 0 * u 2 + Real.sin θ * u 1],
        ![(1 - Real.cos θ) * u 0 * u 1 + Real.sin θ * u 2,
          (1 - Real.cos θ) * u 1 * u 1 + Real.cos θ,
          (1 - Real.cos θ) * u 1 * u 2 - Real.sin θ * u 0],
        ![(1 - Real.cos θ) * u 0 * u 2 - Real.sin θ * u 1,
          (1 - Real.cos θ) * u 1 * u 2 + Real.sin θ * u 0,
          (1 - Real.cos θ) * u 2 * u 2 + Real.cos θ]] := by
  unfold _vrrotvec2mat
  rw [hu, Real.sqrt_one]
  simp only [div_one]

theorem vrrotvec2mat_tr2 (u : Vec3) (θ : ℝ)
    (hu : u 0 ^ 2 + u 1 ^ 2 + u 2 ^ 2 = 1) :
    ((_vrrotvec2mat u θ) 0 0 + (_vrrotvec2mat u θ) 1 1 +
      (_vrrotvec2mat u θ) 2 2 - 1) / 2 = Real.cos θ := by
  rw [vrrotvec2mat_unit u θ hu]
  simp only [Matrix.of_apply, Matrix.cons_val_zero, Matrix.cons_val_one,
    Matrix.head_cons, Matrix.cons_val_two, Matrix.tail_cons]
  linear_combination ((1 - Real.cos θ) / 2) * hu

theorem rodrigues_offdiag_bound (t s a b d e : ℝ)
    (hsum : a ^ 2 + b ^ 2 + d ^ 2 = 1)
    (ht : 0 ≤ t) (hts : t ≤ s) (hse : s ≤ e) :
    |t * a * b - s * d| ≤ e ∧ |t * a * b + s * d| ≤ e := by
  have hs : 0 ≤ s := le_trans ht hts
  have hab : (0 : ℝ) ≤ a ^ 2 + b ^ 2 := by positivity
  constructor
  · rw [abs_le]
    constructor
    · nlinarith [mul_nonneg hs (sq_nonneg (1 - d)),
        mul_nonneg (sub_nonneg.mpr hts) hab, mul_nonneg ht (sq_nonneg (a + b))]
    · nlinarith [mul_nonneg hs (sq_nonneg (1 + d)),
        mul_nonneg (sub_nonneg.mpr hts) hab, mul_nonneg ht (sq_nonneg (a - b))]
  · rw [abs_le]
    constructor
    · nlinarith [mul_nonneg hs (sq_nonneg (1 + d)),
        mul_nonneg (sub_nonneg.mpr hts) hab, mul_nonneg ht (sq_nonneg (a + b))]
    · nlinarith [mul_nonneg hs (sq_nonneg (1 - d)),
        mul_nonneg (sub_nonneg.mpr hts) hab, mul_nonneg ht (sq_nonneg (a - b))]

set_option maxHeartbeats 1000000 in
theorem roundtrip_small_angle (u : Vec3) (θ : ℝ)
    (hu : u 0 ^ 2 + u 1 ^ 2 + u 2 ^ 2 = 1) (h0 : 0 ≤ θ)
    (hsm : θ < 0.0001) :
    ∃ M, roundtrip (_vrrotvec2mat u θ) = some M ∧
      ∀ i j, |M i j - _vrrotvec2mat u θ i j| ≤ 0.0001 := by
  have hpi := Real.pi_gt_three
  have hθπ : θ ≤ Real.pi := by nlinarith
  have htr := vrrotvec2mat_tr2 u θ hu
  have hdom : ¬ (Real.cos θ < -1 ∨ 1 < Real.cos θ) := by
    push_neg
    exact ⟨Real.neg_one_le_cos θ, Real.cos_le_one θ⟩
  have habs : |θ| < 0.0001 := by
    rw [abs_of_nonneg h0]
    exact hsm
  have hext : _vrrotmat2vec (_vrrotvec2mat u θ) = some (![1, 0, 0], 0) := by
    unfold _vrrotmat2vec
    simp only []
    rw [htr, if_neg hdom, Real.arccos_cos h0 hθπ, if_pos habs]
  refine ⟨_vrrotvec2mat ![1, 0, 0] 0, ?_, ?_⟩
  · unfold roundtrip
    rw [hext]
    rfl
  · have hone : _vrrotvec2mat ![(1 : ℝ), 0, 0] 0 = Matrix.of
        ![![(1 : ℝ), 0, 0], ![0, 1, 0], ![0, 0, 1]] := by
      rw [vrrotvec2mat_unit ![(1 : ℝ), 0, 0] 0 (by norm_num)]
      norm_num
    rw [hone, vrrotvec2mat_unit u θ hu]
    clear hone hext htr hdom habs
    -- scalar facts
    have hc1 : Real.cos θ ≤ 1 := Real.cos_le_one θ
    have ht0 : 0 ≤ 1 - Real.cos θ := by linarith
    have hs0 : 0 ≤ Real.sin θ := Real.sin_nonneg_of_nonneg_of_le_pi h0 hθπ
    have hcos0 : 0 ≤ Real.cos θ := by
      apply Real.cos_nonneg_of_mem_Icc
      constructor
      · nlinarith
      · nlinarith
    have hts : 1 - Real.cos θ ≤ Real.sin θ := by
      nlinarith [Real.sin_sq_add_cos_sq θ, mul_nonneg hs0 hcos0,
        sq_nonneg (Real.sin θ + Real.cos θ)]
    have hsθ : Real.sin θ ≤ θ := Real.sin_le h0
    have hse : Real.sin θ ≤ 0.0001 := by linarith
    have htb : 1 - Real.cos θ ≤ θ ^ 2 / 2 := by
      nlinarith [Real.one_sub_sq_div_two_le_cos (x := θ)]
    have hθsq : θ ^ 2 ≤ 0.0001 * 0.0001 := by nlinarith
    have hx2 : u 0 ^ 2 ≤ 1 := by nlinarith [sq_nonneg (u 1), sq_nonneg (u 2)]
    have hy2 : u 1 ^ 2 ≤ 1 := by nlinarith [sq_nonneg (u 0), sq_nonneg (u 2)]
    have hz2 : u 2 ^ 2 ≤ 1 := by nlinarith [sq_nonneg (u 0), sq_nonneg (u 1)]
    have e00 : |(1 : ℝ) - ((1 - Real.cos θ) * u 0 * u 0 + Real.cos θ)| ≤ 0.0001 := by
      rw [abs_le]
      constructor <;> nlinarith [sq_nonneg (u 0)]
    have e11 : |(1 : ℝ) - ((1 - Real.cos θ) * u 1 * u 1 + Real.cos θ)| ≤ 0.0001 := by
      rw [abs_le]
      constructor <;> nlinarith [sq_nonneg (u 1)]
    have e22 : |(1 : ℝ) - ((1 - Real.cos θ) * u 2 * u 2 + Real.cos θ)| ≤ 0.0001 := by
      rw [abs_le]
      constructor <;> nlinarith [sq_nonneg (u 2)]
    have bxy := rodrigues_offdiag_bound (1 - Real.cos θ) (Real.sin θ)
      (u 0) (u 1) (u 2) 0.0001 (by linear_combination hu) ht0 hts hse
    have bxz := rodrigues_offdiag_bound (1 - Real.cos θ) (Real.sin θ)
      (u 0) (u 2) (u 1) 0.0001 (by linear_combination hu) ht0 hts hse
    have byz := rodrigues_offdiag_bound (1 - Real.cos θ) (Real.sin θ)
      (u 1) (u 2) (u 0) 0.0001 (by linear_combination hu) ht0 hts hse
    have e01 : |(0 : ℝ) - ((1 - Real.cos θ) * u 0 * u 1 - Real.sin θ * u 2)| ≤ 0.0001 := by
      rw [zero_sub, abs_neg]
      exact bxy.1
    have e02 : |(0 : ℝ) - ((1 - Real.cos θ) * u 0 * u 2 + Real.sin θ * u 1)| ≤ 0.0001 := by
      rw [zero_sub, abs_neg]
      exact bxz.2
    have e10 : |(0 : ℝ) - ((1 - Real.cos θ) * u 0 * u 1 + Real.sin θ * u 2)| ≤ 0.0001 := by
      rw [zero_sub, abs_neg]
      exact bxy.2
    have e12 : |(0 : ℝ) - ((1 - Real.cos θ) * u 1 * u 2 - Real.sin θ * u 0)| ≤ 0.0001 := by
      rw [zero_sub, abs_neg]
      exact byz.1
    have e20 : |(0 : ℝ) - ((1 - Real.cos θ) * u 0 * u 2 - Real.sin θ * u 1)| ≤ 0.0001 := by
      rw [zero_sub, abs_neg]
      exact bxz.1
    have e21 : |(0 : ℝ) - ((1 - Real.cos θ) * u 1 * u 2 + Real.sin θ * u 0)| ≤ 0.0001 := by
      rw [zero_sub, abs_neg]
      exact byz.2
    intro i j
    fin_cases i <;> fin_cases j
    · exact e00
    · exact e01
    · exact e02
    · exact e10
    · exact e11
    · exact e12
    · exact e20
    · exact e21
    · exact e22

set_option maxHeartbeats 1000000 in
theorem roundtrip_general_angle (u : Vec3) (θ : ℝ)
    (hu : u 0 ^ 2 + u 1 ^ 2 + u 2 ^ 2 = 1) (hlo : 0.0001 ≤ θ)
    (hhi : θ ≤ Real.pi - 0.0001) :
    roundtrip (_vrrotvec2mat u θ) = some (_vrrotvec2mat u θ) := by
  have hpi := Real.pi_gt_three
  have h0 : 0 ≤ θ := by linarith
  have hθπ : θ ≤ Real.pi := by linarith
  have hθltπ : θ < Real.pi := by linarith
  have hθpos : 0 < θ := by linarith
  have hs : 0 < Real.sin θ := Real.sin_pos_of_pos_of_lt_pi hθpos hθltπ
  have htr := vrrotvec2mat_tr2 u θ hu
  have hR := vrrotvec2mat_unit u θ hu
  have hdom : ¬ (Real.cos θ < -1 ∨ 1 < Real.cos θ) := by
    push_neg
    exact ⟨Real.neg_one_le_cos θ, Real.cos_le_one θ⟩
  have hg1 : ¬ |θ| < 0.0001 := by
    rw [abs_of_nonneg h0]
    linarith
  have hg2 : ¬ |θ - Real.pi| < 0.0001 := by
    rw [abs_of_nonpos (by linarith)]
    push_neg
    linarith
  have d1 : _vrrotvec2mat u θ 2 1 - _vrrotvec2mat u θ 1 2 =
      2 * Real.sin θ * u 0 := by
    rw [hR]
    simp only [Matrix.of_apply, Matrix.cons_val_zero, Matrix.cons_val_one,
      Matrix.head_cons, Matrix.cons_val_two, Matrix.tail_cons]
    ring
  have d2 : _vrrotvec2mat u θ 0 2 - _vrrotvec2mat u θ 2 0 =
      2 * Real.sin θ * u 1 := by
    rw [hR]
    simp only [Matrix.of_apply, Matrix.cons_val_zero, Matrix.cons_val_one,
      Matrix.head_cons, Matrix.cons_val_two, Matrix.tail_cons]
    ring
  have d3 : _vrrotvec2mat u θ 1 0 - _vrrotvec2mat u θ 0 1 =
      2 * Real.sin θ * u 2 := by
    rw [hR]
    simp only [Matrix.of_apply, Matrix.cons_val_zero, Matrix.cons_val_one,
      Matrix.head_cons, Matrix.cons_val_two, Matrix.tail_cons]
    ring
  have hden : Real.sqrt ((2 * Real.sin θ * u 0) ^ 2 +
      (2 * Real.sin θ * u 1) ^ 2 + (2 * Real.sin θ * u 2) ^ 2) =
      2 * Real.sin θ := by
    have hsum : (2 * Real.sin θ * u 0) ^ 2 + (2 * Real.sin θ * u 1) ^ 2 +
        (2 * Real.sin θ * u 2) ^ 2 = (2 * Real.sin θ) ^ 2 := by
      linear_combination (4 * Real.sin θ ^ 2) * hu
    rw [hsum]
    exact Real.sqrt_sq (by positivity)
  have hden_ne : ¬ ((2 * Real.sin θ : ℝ) = 0) := by positivity
  have haxis : ![2 * Real.sin θ * u 0 / (2 * Real.sin θ),
      2 * Real.sin θ * u 1 / (2 * Real.sin θ),
      2 * Real.sin θ * u 2 / (2 * Real.sin θ)] = u := by
    funext k
    fin_cases k
    · show 2 * Real.sin θ * u 0 / (2 * Real.sin θ) = u 0
      field_simp
    · show 2 * Real.sin θ * u 1 / (2 * Real.sin θ) = u 1
      field_simp
    · show 2 * Real.sin θ * u 2 / (2 * Real.sin θ) = u 2
      field_simp
  have hext : _vrrotmat2vec (_vrrotvec2mat u θ) = some (u, θ) := by
    unfold _vrrotmat2vec
    simp only []
    rw [htr, if_neg hdom, Real.arccos_cos h0 hθπ, if_neg hg1, if_neg hg2]
    rw [d1, d2, d3, hden, if_neg hden_ne]
    rw [haxis]
  unfold roundtrip
  rw [hext]
  rfl

theorem vrrotvec2mat_pi_sign (u : Vec3)
    (hu : u 0 ^ 2 + u 1 ^ 2 + u 2 ^ 2 = 1) (e : ℝ) (he : e * e = 1) :
    _vrrotvec2mat (fun k => e * u k) Real.pi = _vrrotvec2mat u Real.pi := by
  have hunit : (fun k => e * u k : Vec3) 0 ^ 2 + (fun k => e * u k : Vec3) 1 ^ 2 +
      (fun k => e * u k : Vec3) 2 ^ 2 = 1 := by
    show (e * u 0) ^ 2 + (e * u 1) ^ 2 + (e * u 2) ^ 2 = 1
    have hh : (e * u 0) ^ 2 + (e * u 1) ^ 2 + (e * u 2) ^ 2 =
        (e * e) * (u 0 ^ 2 + u 1 ^ 2 + u 2 ^ 2) := by ring
    rw [hh, he, hu, one_mul]
  rw [vrrotvec2mat_unit _ _ hunit, vrrotvec2mat_unit u _ hu]
  have e00 : (1 - Real.cos Real.pi) * (e * u 0) * (e * u 0) + Real.cos Real.pi =
      (1 - Real.cos Real.pi) * u 0 * u 0 + Real.cos Real.pi := by
    simp only [Real.cos_pi]; linear_combination (2 * u 0 * u 0) * he
  have e01 : (1 - Real.cos Real.pi) * (e * u 0) * (e * u 1) - Real.sin Real.pi * (e * u 2) =
      (1 - Real.cos Real.pi) * u 0 * u 1 - Real.sin Real.pi * u 2 := by
    simp only [Real.cos_pi, Real.sin_pi]; linear_combination (2 * u 0 * u 1) * he
  have e02 : (1 - Real.cos Real.pi) * (e * u 0) * (e * u 2) + Real.sin Real.pi * (e * u 1) =
      (1 - Real.cos Real.pi) * u 0 * u 2 + Real.sin Real.pi * u 1 := by
    simp only [Real.cos_pi, Real.sin_pi]; linear_combination (2 * u 0 * u 2) * he
  have e10 : (1 - Real.cos Real.pi) * (e * u 0) * (e * u 1) + Real.sin Real.pi * (e * u 2) =
      (1 - Real.cos Real.pi) * u 0 * u 1 + Real.sin Real.pi * u 2 := by
    simp only [Real.cos_pi, Real.sin_pi]; linear_combination (2 * u 0 * u 1) * he
  have e11 : (1 - Real.cos Real.pi) * (e * u 1) * (e * u 1) + Real.cos Real.pi =
      (1 - Real.cos Real.pi) * u 1 * u 1 + Real.cos Real.pi := by
    simp only [Real.cos_pi]; linear_combination (2 * u 1 * u 1) * he
  have e12 : (1 - Real.cos Real.pi) * (e * u 1) * (e * u 2) - Real.sin Real.pi * (e * u 0) =
      (1 - Real.cos Real.pi) * u 1 * u 2 - Real.sin Real.pi * u 0 := by
    simp only [Real.cos_pi, Real.sin_pi]; linear_combination (2 * u 1 * u 2) * he
  have e20 : (1 - Real.cos Real.pi) * (e * u 0) * (e * u 2) - Real.sin Real.pi * (e * u 1) =
      (1 - Real.cos Real.pi) * u 0 * u 2 - Real.sin Real.pi * u 1 := by
    simp only [Real.cos_pi, Real.sin_pi]; linear_combination (2 * u 0 * u 2) * he
  have e21 : (1 - Real.cos Real.pi) * (e * u 1) * (e * u 2) + Real.sin Real.pi * (e * u 0) =
      (1 - Real.cos Real.pi) * u 1 * u 2 + Real.sin Real.pi * u 0 := by
    simp only [Real.cos_pi, Real.sin_pi]; linear_combination (2 * u 1 * u 2) * he
  have e22 : (1 - Real.cos Real.pi) * (e * u 2) * (e * u 2) + Real.cos Real.pi =
      (1 - Real.cos Real.pi) * u 2 * u 2 + Real.cos Real.pi := by
    simp only [Real.cos_pi]; linear_combination (2 * u 2 * u 2) * he
  ext i j
  fin_cases i <;> fin_cases j
  · exact e00
  · exact e01
  · exact e02
  · exact e10
  · exact e11
  · exact e12
  · exact e20
  · exact e21
  · exact e22

set_option maxHeartbeats 1000000 in
theorem roundtrip_pi (u : Vec3) (hu : u 0 ^ 2 + u 1 ^ 2 + u 2 ^ 2 = 1) :
    roundtrip (_vrrotvec2mat u Real.pi) = some (_vrrotvec2mat u Real.pi) := by
  have hR := vrrotvec2mat_unit u Real.pi hu
  have htr := vrrotvec2mat_tr2 u Real.pi hu
  have hdom : ¬ (Real.cos Real.pi < -1 ∨ 1 < Real.cos Real.pi) := by
    rw [Real.cos_pi]; push_neg; norm_num
  have harc : Real.arccos (Real.cos Real.pi) = Real.pi := by
    rw [Real.cos_pi]; exact Real.arccos_neg_one
  have hg1 : ¬ |Real.pi| < 0.0001 := by
    rw [abs_of_nonneg Real.pi_pos.le]; push_neg
    linarith [Real.pi_gt_three]
  have hg2 : |Real.pi - Real.pi| < 0.0001 := by
    rw [sub_self, abs_zero]; norm_num
  have hcs : ∀ i : Fin 3, _vrrotvec2mat u Real.pi i i =
      (1 - Real.cos Real.pi) * u i * u i + Real.cos Real.pi := by
    intro i; fin_cases i
    · exact congrFun (congrFun hR 0) 0
    · exact congrFun (congrFun hR 1) 1
    · exact congrFun (congrFun hR 2) 2
  have hxx : (_vrrotvec2mat u Real.pi 0 0 + 1) / 2 = u 0 ^ 2 := by
    rw [hcs 0, Real.cos_pi]; ring
  have hyy : (_vrrotvec2mat u Real.pi 1 1 + 1) / 2 = u 1 ^ 2 := by
    rw [hcs 1, Real.cos_pi]; ring
  have hzz : (_vrrotvec2mat u Real.pi 2 2 + 1) / 2 = u 2 ^ 2 := by
    rw [hcs 2, Real.cos_pi]; ring
  have h01 : _vrrotvec2mat u Real.pi 0 1 =
      (1 - Real.cos Real.pi) * u 0 * u 1 - Real.sin Real.pi * u 2 :=
    congrFun (congrFun hR 0) 1
  have h10 : _vrrotvec2mat u Real.pi 1 0 =
      (1 - Real.cos Real.pi) * u 0 * u 1 + Real.sin Real.pi * u 2 :=
    congrFun (congrFun hR 1) 0
  have h02 : _vrrotvec2mat u Real.pi 0 2 =
      (1 - Real.cos Real.pi) * u 0 * u 2 + Real.sin Real.pi * u 1 :=
    congrFun (congrFun hR 0) 2
  have h20 : _vrrotvec2mat u Real.pi 2 0 =
      (1 - Real.cos Real.pi) * u 0 * u 2 - Real.sin Real.pi * u 1 :=
    congrFun (congrFun hR 2) 0
  have h12 : _vrrotvec2mat u Real.pi 1 2 =
      (1 - Real.cos Real.pi) * u 1 * u 2 - Real.sin Real.pi * u 0 :=
    congrFun (congrFun hR 1) 2
  have h21 : _vrrotvec2mat u Real.pi 2 1 =
      (1 - Real.cos Real.pi) * u 1 * u 2 + Real.sin Real.pi * u 0 :=
    congrFun (congrFun hR 2) 1
  have hxy : (_vrrotvec2mat u Real.pi 0 1 + _vrrotvec2mat u Real.pi 1 0) / 4 =
      u 0 * u 1 := by
    rw [h01, h10, Real.cos_pi]; ring
  have hxz : (_vrrotvec2mat u Real.pi 0 2 + _vrrotvec2mat u Real.pi 2 0) / 4 =
      u 0 * u 2 := by
    rw [h02, h20, Real.cos_pi]; ring
  have hyz : (_vrrotvec2mat u Real.pi 1 2 + _vrrotvec2mat u Real.pi 2 1) / 4 =
      u 1 * u 2 := by
    rw [h12, h21, Real.cos_pi]; ring
  by_cases hb1 : u 0 ^ 2 > u 1 ^ 2 ∧ u 0 ^ 2 > u 2 ^ 2
  · have hx3 : (1 : ℝ) / 3 < u 0 ^ 2 := by nlinarith [hb1.1, hb1.2]
    have hxeps : ¬ (u 0 ^ 2 < 0.01) := by push_neg; nlinarith
    have hx0 : u 0 ≠ 0 := by
      intro h; rw [h] at hx3; norm_num at hx3
    have habs : |u 0| ≠ 0 := abs_ne_zero.mpr hx0
    have hext : _vrrotmat2vec (_vrrotvec2mat u Real.pi) =
        some (![Real.sqrt (u 0 ^ 2), u 0 * u 1 / Real.sqrt (u 0 ^ 2),
          u 0 * u 2 / Real.sqrt (u 0 ^ 2)], Real.pi) := by
      unfold _vrrotmat2vec
      simp only []
      rw [htr, if_neg hdom, harc, if_neg hg1, if_pos hg2, hxx, hyy, hzz, hxy, hxz, hyz]
      rw [if_pos hb1, if_neg hxeps]
    have hsq : (|u 0| / u 0) * (|u 0| / u 0) = 1 := by
      rw [div_mul_div_comm, abs_mul_abs_self, div_self (mul_ne_zero hx0 hx0)]
    have hrec := vrrotvec2mat_pi_sign u hu (|u 0| / u 0) hsq
    have heq : (fun k => (|u 0| / u 0) * u k : Vec3) =
        ![Real.sqrt (u 0 ^ 2), u 0 * u 1 / Real.sqrt (u 0 ^ 2),
          u 0 * u 2 / Real.sqrt (u 0 ^ 2)] := by
      funext k; fin_cases k
      · show |u 0| / u 0 * u 0 = Real.sqrt (u 0 ^ 2)
        rw [Real.sqrt_sq_eq_abs, div_mul_cancel₀ _ hx0]
      · show |u 0| / u 0 * u 1 = u 0 * u 1 / Real.sqrt (u 0 ^ 2)
        rw [Real.sqrt_sq_eq_abs, div_mul_eq_mul_div, div_eq_div_iff hx0 habs]
        linear_combination u 1 * abs_mul_abs_self (u 0)
      · show |u 0| / u 0 * u 2 = u 0 * u 2 / Real.sqrt (u 0 ^ 2)
        rw [Real.sqrt_sq_eq_abs, div_mul_eq_mul_div, div_eq_div_iff hx0 habs]
        linear_combination u 2 * abs_mul_abs_self (u 0)
    rw [heq] at hrec
    unfold roundtrip
    rw [hext]
    simp only [Option.map_some']
    exact congrArg some hrec
  · by_cases hb2 : u 1 ^ 2 > u 2 ^ 2
    · have hy3 : (1 : ℝ) / 3 < u 1 ^ 2 := by
        rcases not_and_or.mp hb1 with h | h
        · push_neg at h; nlinarith
        · push_neg at h; nlinarith
      have hyeps : ¬ (u 1 ^ 2 < 0.01) := by push_neg; nlinarith
      have hy0 : u 1 ≠ 0 := by
        intro h; rw [h] at hy3; norm_num at hy3
      have habs : |u 1| ≠ 0 := abs_ne_zero.mpr hy0
      have hext : _vrrotmat2vec (_vrrotvec2mat u Real.pi) =
          some (![u 0 * u 1 / Real.sqrt (u 1 ^ 2), Real.sqrt (u 1 ^ 2),
            u 1 * u 2 / Real.sqrt (u 1 ^ 2)], Real.pi) := by
        unfold _vrrotmat2vec
        simp only []
        rw [htr, if_neg hdom, harc, if_neg hg1, if_pos hg2, hxx, hyy, hzz, hxy, hxz, hyz]
        rw [if_neg hb1, if_pos hb2, if_neg hyeps]
      have hsq : (|u 1| / u 1) * (|u 1| / u 1) = 1 := by
        rw [div_mul_div_comm, abs_mul_abs_self, div_self (mul_ne_zero hy0 hy0)]
      have hrec := vrrotvec2mat_pi_sign u hu (|u 1| / u 1) hsq
      have heq : (fun k => (|u 1| / u 1) * u k : Vec3) =
          ![u 0 * u 1 / Real.sqrt (u 1 ^ 2), Real.sqrt (u 1 ^ 2),
            u 1 * u 2 / Real.sqrt (u 1 ^ 2)] := by
        funext k; fin_cases k
        · show |u 1| / u 1 * u 0 = u 0 * u 1 / Real.sqrt (u 1 ^ 2)
          rw [Real.sqrt_sq_eq_abs, div_mul_eq_mul_div, div_eq_div_iff hy0 habs]
          linear_combination u 0 * abs_mul_abs_self (u 1)
        · show |u 1| / u 1 * u 1 = Real.sqrt (u 1 ^ 2)
          rw [Real.sqrt_sq_eq_abs, div_mul_cancel₀ _ hy0]
        · show |u 1| / u 1 * u 2 = u 1 * u 2 / Real.sqrt (u 1 ^ 2)
          rw [Real.sqrt_sq_eq_abs, div_mul_eq_mul_div, div_eq_div_iff hy0 habs]
          linear_combination u 2 * abs_mul_abs_self (u 1)
      rw [heq] at hrec
      unfold roundtrip
      rw [hext]
      simp only [Option.map_some']
      exact congrArg some hrec
    · have hz3 : (1 : ℝ) / 3 ≤ u 2 ^ 2 := by
        push_neg at hb2
        rcases not_and_or.mp hb1 with h | h
        · push_neg at h; nlinarith
        · push_neg at h; nlinarith
      have hzeps : ¬ (u 2 ^ 2 < 0.01) := by push_neg; nlinarith
      have hz0 : u 2 ≠ 0 := by
        intro h; rw [h] at hz3; norm_num at hz3
      have habs : |u 2| ≠ 0 := abs_ne_zero.mpr hz0
      have hext : _vrrotmat2vec (_vrrotvec2mat u Real.pi) =
          some (![u 0 * u 2 / Real.sqrt (u 2 ^ 2), u 1 * u 2 / Real.sqrt (u 2 ^ 2),
            Real.sqrt (u 2 ^ 2)], Real.pi) := by
        unfold _vrrotmat2vec
        simp only []
        rw [htr, if_neg hdom, harc, if_neg hg1, if_pos hg2, hxx, hyy, hzz, hxy, hxz, hyz]
        rw [if_neg hb1, if_neg hb2, if_neg hzeps]
      have hsq : (|u 2| / u 2) * (|u 2| / u 2) = 1 := by
        rw [div_mul_div_comm, abs_mul_abs_self, div_self (mul_ne_zero hz0 hz0)]
      have hrec := vrrotvec2mat_pi_sign u hu (|u 2| / u 2) hsq
      have heq : (fun k => (|u 2| / u 2) * u k : Vec3) =
          ![u 0 * u 2 / Real.sqrt (u 2 ^ 2), u 1 * u 2 / Real.sqrt (u 2 ^ 2),
            Real.sqrt (u 2 ^ 2)] := by
        funext k; fin_cases k
        · show |u 2| / u 2 * u 0 = u 0 * u 2 / Real.sqrt (u 2 ^ 2)
          rw [Real.sqrt_sq_eq_abs, div_mul_eq_mul_div, div_eq_div_iff hz0 habs]
          linear_combination u 0 * abs_mul_abs_self (u 2)
        · show |u 2| / u 2 * u 1 = u 1 * u 2 / Real.sqrt (u 2 ^ 2)
          rw [Real.sqrt_sq_eq_abs, div_mul_eq_mul_div, div_eq_div_iff hz0 habs]
          linear_combination u 1 * abs_mul_abs_self (u 2)
        · show |u 2| / u 2 * u 2 = Real.sqrt (u 2 ^ 2)
          rw [Real.sqrt_sq_eq_abs, div_mul_cancel₀ _ hz0]
      rw [heq] at hrec
      unfold roundtrip
      rw [hext]
      simp only [Option.map_some']
      exact congrArg some hrec

/-- Counterexample for claim C9: an orthonormal matrix with determinant 1
(a rotation by an angle within `1e-4` of `pi`) for which the roundtrip
returns normally but the entry `(1, 2)` of the reconstruction is off by
`2 * sin(pi - angle) = 120000/900000001 > 1e-4`: the square-root branch
of `_vrrotmat2vec` forces a nonnegative first axis component, flipping
the axis of this rotation, and the angle is not close enough to `pi` for
the flip to be harmless. -/
theorem roundtrip_near_pi_counterexample :
    Rc.transpose * Rc = 1 ∧ Rc.det = 1 ∧
      ∃ M, roundtrip Rc = some M ∧ 0.0001 < |M 1 2 - Rc 1 2| := by
  have e00 : Rc 0 0 = 1 := rfl
  have e01 : Rc 0 1 = 0 := rfl
  have e02 : Rc 0 2 = 0 := rfl
  have e10 : Rc 1 0 = 0 := rfl
  have e11 : Rc 1 1 = -(899999999/900000001) := rfl
  have e12 : Rc 1 2 = 60000/900000001 := rfl
  have e20 : Rc 2 0 = 0 := rfl
  have e21 : Rc 2 1 = -(60000/900000001) := rfl
  have e22 : Rc 2 2 = -(899999999/900000001) := rfl
  have g00 : Rc 0 0 * Rc 0 0 + Rc 1 0 * Rc 1 0 + Rc 2 0 * Rc 2 0 = 1 := by
    rw [e00, e10, e20]; norm_num
  have g01 : Rc 0 0 * Rc 0 1 + Rc 1 0 * Rc 1 1 + Rc 2 0 * Rc 2 1 = 0 := by
    rw [e00, e01, e10, e11, e20, e21]; norm_num
  have g02 : Rc 0 0 * Rc 0 2 + Rc 1 0 * Rc 1 2 + Rc 2 0 * Rc 2 2 = 0 := by
    rw [e00, e02, e10, e12, e20, e22]; norm_num
  have g10 : Rc 0 1 * Rc 0 0 + Rc 1 1 * Rc 1 0 + Rc 2 1 * Rc 2 0 = 0 := by
    rw [e00, e01, e10, e11, e20, e21]; norm_num
  have g11 : Rc 0 1 * Rc 0 1 + Rc 1 1 * Rc 1 1 + Rc 2 1 * Rc 2 1 = 1 := by
    rw [e01, e11, e21]; norm_num
  have g12 : Rc 0 1 * Rc 0 2 + Rc 1 1 * Rc 1 2 + Rc 2 1 * Rc 2 2 = 0 := by
    rw [e01, e02, e11, e12, e21, e22]; norm_num
  have g20 : Rc 0 2 * Rc 0 0 + Rc 1 2 * Rc 1 0 + Rc 2 2 * Rc 2 0 = 0 := by
    rw [e00, e02, e10, e12, e20, e22]; norm_num
  have g21 : Rc 0 2 * Rc 0 1 + Rc 1 2 * Rc 1 1 + Rc 2 2 * Rc 2 1 = 0 := by
    rw [e01, e02, e11, e12, e21, e22]; norm_num
  have g22 : Rc 0 2 * Rc 0 2 + Rc 1 2 * Rc 1 2 + Rc 2 2 * Rc 2 2 = 1 := by
    rw [e02, e12, e22]; norm_num
  refine ⟨?_, ?_, ?_⟩
  · ext i j
    rw [Matrix.mul_apply, Fin.sum_univ_three]
    simp only [Matrix.transpose_apply]
    fin_cases i <;> fin_cases j
    · exact g00
    · exact g01
    · exact g02
    · exact g10
    · exact g11
    · exact g12
    · exact g20
    · exact g21
    · exact g22
  · norm_num [Rc, Matrix.det_fin_three, Matrix.of_apply, Matrix.cons_val_zero,
      Matrix.cons_val_one, Matrix.head_cons, Matrix.cons_val_two, Matrix.tail_cons]
  · have hdom : ¬ (-((899999999:ℝ)/900000001) < -1 ∨ 1 < -((899999999:ℝ)/900000001)) := by
      push_neg; constructor <;> norm_num
    have hg1 : ¬ |Real.arccos (-(899999999/900000001))| < 0.0001 := by
      rw [abs_of_nonneg (Real.arccos_nonneg _)]
      push_neg
      have hm1 : (-((899999999:ℝ)/900000001)) ∈ Set.Icc (-1:ℝ) 1 := by
        constructor <;> norm_num
      have hm0 : (0:ℝ) ∈ Set.Icc (-1:ℝ) 1 := by constructor <;> norm_num
      have h1 : Real.arccos 0 < Real.arccos (-((899999999:ℝ)/900000001)) :=
        Real.strictAntiOn_arccos hm1 hm0 (by norm_num)
      rw [Real.arccos_zero] at h1
      linarith [Real.pi_gt_three]
    have hpile : (0.0001 : ℝ) ≤ Real.pi := by linarith [Real.pi_gt_three]
    have harr : Real.arccos (899999999/900000001) < 0.0001 := by
      have habs : |(0.0001 : ℝ)| = 0.0001 := abs_of_nonneg (by norm_num)
      have hcb : |Real.cos 0.0001 - (1 - 0.0001 ^ 2 / 2)| ≤ |(0.0001:ℝ)| ^ 4 * (5/96) :=
        Real.cos_bound (by rw [habs]; norm_num)
      have h2 := (abs_le.mp hcb).2
      rw [habs] at h2
      have hcosle : Real.cos 0.0001 < 899999999/900000001 := by
        norm_num at h2
        linarith [h2]
      have hmem1 : Real.cos 0.0001 ∈ Set.Icc (-1:ℝ) 1 :=
        ⟨Real.neg_one_le_cos _, Real.cos_le_one _⟩
      have hmem2 : ((899999999:ℝ)/900000001) ∈ Set.Icc (-1:ℝ) 1 := by
        constructor <;> norm_num
      have harccos := Real.strictAntiOn_arccos hmem1 hmem2 hcosle
      rw [Real.arccos_cos (by norm_num) hpile] at harccos
      exact harccos
    have hg2 : |Real.arccos (-(899999999/900000001)) - Real.pi| < 0.0001 := by
      have hle : Real.arccos (-((899999999:ℝ)/900000001)) ≤ Real.pi :=
        Real.arccos_le_pi _
      rw [abs_of_nonpos (by linarith)]
      have hneg : Real.arccos (-((899999999:ℝ)/900000001)) =
          Real.pi - Real.arccos (899999999/900000001) := Real.arccos_neg _
      rw [hneg]
      have h3 := harr
      linarith
    have htr2 : ((1:ℝ) + -(899999999/900000001) + -(899999999/900000001) - 1) / 2 =
        -(899999999/900000001) := by norm_num
    have hxxv : ((1:ℝ) + 1) / 2 = 1 := by norm_num
    have hxyv : ((0:ℝ) + 0) / 4 = 0 := by norm_num
    have hb1 : (1:ℝ) > (-(899999999/900000001) + 1) / 2 ∧
        (1:ℝ) > (-(899999999/900000001) + 1) / 2 := by
      constructor <;> norm_num
    have heps : ¬ ((1:ℝ) < 0.01) := by norm_num
    have hext : _vrrotmat2vec Rc =
        some (![1, 0, 0], Real.arccos (-(899999999/900000001))) := by
      unfold _vrrotmat2vec
      simp only []
      rw [e00, e01, e02, e10, e11, e12, e20, e21, e22]
      rw [htr2, if_neg hdom, if_neg hg1, if_pos hg2]
      rw [hxxv, hxyv]
      rw [if_pos hb1, if_neg heps]
      rw [Real.sqrt_one, div_one]
    refine ⟨_vrrotvec2mat ![1, 0, 0] (Real.arccos (-(899999999/900000001))), ?_, ?_⟩
    · unfold roundtrip
      rw [hext]
      rfl
    · have hunit : (![1, 0, 0] : Vec3) 0 ^ 2 + (![1, 0, 0] : Vec3) 1 ^ 2 +
          (![1, 0, 0] : Vec3) 2 ^ 2 = 1 := by norm_num
      have hM12 : _vrrotvec2mat ![1, 0, 0] (Real.arccos (-(899999999/900000001))) 1 2 =
          (1 - Real.cos (Real.arccos (-(899999999/900000001)))) * 0 * 0 -
            Real.sin (Real.arccos (-(899999999/900000001))) * 1 :=
        congrFun (congrFun (vrrotvec2mat_unit ![1, 0, 0] _ hunit) 1) 2
      have hsin : Real.sin (Real.arccos (-(899999999/900000001))) = 60000/900000001 := by
        rw [Real.sin_arccos]
        have hsq : (1:ℝ) - (-(899999999/900000001)) ^ 2 = (60000/900000001) ^ 2 := by
          norm_num
        rw [hsq]
        exact Real.sqrt_sq (by norm_num)
      rw [hM12, hsin, e12]
      have hval : ((1:ℝ) - Real.cos (Real.arccos (-(899999999/900000001)))) * 0 * 0 -
          60000/900000001 * 1 - 60000/900000001 = -(120000/900000001) := by ring
      rw [hval, abs_neg, abs_of_nonneg (by norm_num : (0:ℝ) ≤ 120000/900000001)]
      norm_num

/-- Claim C9 (amended): for every rotation given in axis-angle form by a
unit axis `u` and an angle `θ` with `0 ≤ θ` and either `θ ≤ pi - 1e-4` or
`θ = pi`, composing the axis-angle extraction `_vrrotmat2vec` with the
reconstruction `_vrrotvec2mat` succeeds and returns a matrix equal to the
input within `1e-4` absolute error in every entry (away from the singular
branches the reconstruction is exact; at an angle below `1e-4` the
extraction rounds to the identity, and at exactly `pi` the square-root
branch recovers the axis up to a sign that does not change the rotation).
Within `1e-4` of `pi` but not at `pi` the claim fails, see the
counterexample. -/
theorem roundtrip_reconstructs (u : Vec3) (θ : ℝ)
    (hu : u 0 ^ 2 + u 1 ^ 2 + u 2 ^ 2 = 1) (h0 : 0 ≤ θ)
    (hcase : θ ≤ Real.pi - 0.0001 ∨ θ = Real.pi) :
    ∃ M, roundtrip (_vrrotvec2mat u θ) = some M ∧
      ∀ i j, |M i j - _vrrotvec2mat u θ i j| ≤ 0.0001 := by
  rcases hcase with hle | hpi
  · by_cases hsm : θ < 0.0001
    · exact roundtrip_small_angle u θ hu h0 hsm
    · push_neg at hsm
      refine ⟨_, roundtrip_general_angle u θ hu hsm hle, ?_⟩
      intro i j
      rw [sub_self, abs_zero]
      norm_num
  · subst hpi
    refine ⟨_, roundtrip_pi u hu, ?_⟩
    intro i j
    rw [sub_self, abs_zero]
    norm_num

/-- Witness for claim C9 at the identity rotation (axis `(1,0,0)`,
angle `0`). -/
theorem roundtrip_reconstructs_witness :
    ∃ M, roundtrip (_vrrotvec2mat ![1, 0, 0] 0) = some M ∧
      ∀ i j, |M i j - _vrrotvec2mat ![1, 0, 0] 0 i j| ≤ 0.0001 :=
  roundtrip_reconstructs ![1, 0, 0] 0 (by norm_num) le_rfl
    (Or.inl (by linarith [Real.pi_gt_three]))

end Nanodesign
